import Mathlib

/-!
Verification development for the Material Issue Tracker's
"Material Consumption Reconciliation & Spool Allocation Engine"
(`data_manager.py`, `models.py`).

Quantities stored in SQLite `Float` columns are modelled as exact
rationals (`ℚ`); nullable columns as `Option`; timestamps as abstract
`Nat` clock values.  Each definition mirrors the corresponding Python
function in `data_manager.py`; comments cite the source lines.
-/

namespace MIT

/-- `needle in hay` on character lists (Python's `in` for strings). -/
def charsContains (n : List Char) : List Char → Bool
  | [] => n.isEmpty
  | c :: rest => n.isPrefixOf (c :: rest) || charsContains n rest

/-- Python's `needle in hay` substring test. -/
def strContains (hay needle : String) : Bool :=
  charsContains needle.toList hay.toList

/-- Python's `str.upper()` (character-wise, as for the ASCII labels used here). -/
def toUpperStr (s : String) : String := ⟨s.data.map Char.toUpper⟩

/-- Python's `str.lower()`. -/
def toLowerStr (s : String) : String := ⟨s.data.map Char.toLower⟩

/-- Python's `str.strip()`. -/
def trimStr (s : String) : String :=
  ⟨((s.data.dropWhile Char.isWhitespace).reverse.dropWhile Char.isWhitespace).reverse⟩

def digitChar (n : Nat) : Char := Char.ofNat (48 + n)

def natDigits (fuel n : Nat) : List Char :=
  match fuel with
  | 0 => []
  | fuel + 1 => if n < 10 then [digitChar n] else natDigits fuel (n / 10) ++ [digitChar (n % 10)]

def natStr (n : Nat) : String := ⟨natDigits (n + 1) n⟩

/-- Rendering of a quantity in the derived comment text.  The Python code
uses `f-string` fixed-point formatting; the comment field is explicitly
non-authoritative, so the exact digits are abstracted by an exact
rational rendering. -/
def ratStr (q : ℚ) : String :=
  (if q < 0 then "-" else "") ++ natStr q.num.natAbs ++
    (if q.den = 1 then "" else "/" ++ natStr q.den)

/-- The floor of a rational, written with explicit floor division so that
it evaluates. -/
def ratFloor (q : ℚ) : ℤ := Int.fdiv q.num q.den

/-- Python's `round(q, 2)` (round half to even), on exact rationals. -/
def round2 (q : ℚ) : ℚ :=
  let y := q * 100
  let f : ℤ := ratFloor y
  let r := y - (f : ℚ)
  let n : ℤ :=
    if r < 1/2 then f
    else if 1/2 < r then f + 1
    else if f % 2 = 0 then f else f + 1
  (n : ℚ) / 100

/-- `SPOOL_TYPE_MAPPING` (data_manager.py lines 29-38): the static
alias table of the Equivalence Resolver. -/
def SPOOL_TYPE_MAPPING : List (String × List String) :=
  [ ("FLANGE", ["FLG", "FLAN", "FLN"])
  , ("ELBOW", ["ELB", "ELL", "ELBO"])
  , ("TEE", ["TEE"])
  , ("REDUCER", ["RED", "REDU", "CON", "CONN", "ECC"])
  , ("CAP", ["CAP"])
  , ("PIPE", ["PIPE", "PIP"]) ]

/-- The loop `for key, aliases in SPOOL_TYPE_MAPPING.items(): ...`
(data_manager.py lines 445-448 and 1632-1637): first group whose key
or aliases contain the (already normalized) input wins; otherwise the
singleton input. -/
def equivalentsOf (u : String) : List String :=
  match SPOOL_TYPE_MAPPING.find? (fun kv => decide (u = kv.1) || decide (u ∈ kv.2)) with
  | some kv => u :: kv.1 :: kv.2
  | none => [u]

/-- `str(mto_item.item_type).upper().strip()` (data_manager.py line 443):
Python renders `None` as the string `"None"`. -/
def pyUpperStr (o : Option String) : String :=
  trimStr (toUpperStr (o.getD "None"))

/-- Equivalence set used by the Progress Aggregator
(data_manager.py lines 443-448). -/
def spoolEquivalentsMTO (t : Option String) : List String :=
  equivalentsOf (pyUpperStr t)

/-- All labels (group keys and aliases) of the static alias table. -/
def allSpoolLabels : List String :=
  SPOOL_TYPE_MAPPING.foldr (fun kv acc => kv.1 :: kv.2 ++ acc) []

/-- The Resolver on a raw type string: normalization followed by the
alias-group lookup, as in `get_mapped_spool_items`
(data_manager.py lines 1628-1639). -/
def resolverFor (s : String) : List String :=
  equivalentsOf (trimStr (toUpperStr s))

/-! ## Data model (models.py) -/

/-- `Spool` (models.py): only the columns the engine reads. -/
structure Spool where
  id : Nat
  spool_id : String
deriving DecidableEq, Repr

/-- `SpoolItem` (models.py): an InventoryItem of the pool. -/
structure SpoolItem where
  id : Nat
  spool_id_fk : Nat
  component_type : Option String
  p1_bore : Option ℚ
  qty_available : Option ℚ
  length : Option ℚ
deriving DecidableEq, Repr

/-- `MIVRecord` (models.py lines 26-45): a voucher header. -/
structure MIVRecord where
  id : Nat
  project_id : Nat
  line_no : String
  miv_tag : String
  location : String
  status : String
  comment : String
  registered_for : String
  registered_by : String
  last_updated : Nat
  is_complete : Bool
deriving DecidableEq, Repr

/-- `MTOItem` (models.py): a Requirement; only the columns the engine reads. -/
structure MTOItem where
  id : Nat
  project_id : Nat
  line_no : String
  item_type : Option String
  item_code : Option String
  description : Option String
  unit : Option String
  p1_bore_in : Option ℚ
  length_m : Option ℚ
  quantity : Option ℚ
deriving DecidableEq, Repr

/-- `MTOConsumption` (models.py): a direct ConsumptionRecord. -/
structure MTOConsumption where
  mto_item_id : Nat
  miv_record_id : Nat
  used_qty : ℚ
  timestamp : Nat
deriving DecidableEq, Repr

/-- `SpoolConsumption` (models.py): a SpoolConsumptionRecord. -/
structure SpoolConsumption where
  spool_item_id : Nat
  spool_id : Nat
  miv_record_id : Nat
  used_qty : ℚ
  timestamp : Nat
deriving DecidableEq, Repr

/-- `MTOProgress` (models.py lines 78-95): a derived RequirementProgress row. -/
structure MTOProgress where
  mto_item_id : Nat
  project_id : Nat
  line_no : String
  item_code : Option String
  description : Option String
  unit : Option String
  total_qty : Option ℚ
  used_qty : Option ℚ
  remaining_qty : Option ℚ
  last_updated : Nat
deriving DecidableEq, Repr

/-- The relational state the engine reads and writes. -/
structure DB where
  mivRecords : List MIVRecord
  mtoItems : List MTOItem
  mtoConsumptions : List MTOConsumption
  spools : List Spool
  spoolItems : List SpoolItem
  spoolConsumptions : List SpoolConsumption
  progress : List MTOProgress
deriving DecidableEq, Repr

/-! ## Progress Aggregator (`rebuild_mto_progress_for_line`, data_manager.py 390-485) -/

/-- The MTO items of a `(project, line)` pair (the `base_query` filter). -/
def lineItems (db : DB) (p : Nat) (l : String) : List MTOItem :=
  db.mtoItems.filter (fun it => decide (it.project_id = p) && decide (it.line_no = l))

/-- `coalesce(sum(MTOConsumption.used_qty), 0.0)` grouped per MTO item
(the `base_query` outer join, lines 399-407). -/
def directUsed (db : DB) (itemId : Nat) : ℚ :=
  ((db.mtoConsumptions.filter (fun c => decide (c.mto_item_id = itemId))).map
    (fun c => c.used_qty)).sum

/-- Key of the `spool_usage_map`: `(func.upper(component_type), p1_bore)`.
SQL `UPPER` keeps `NULL` as `NULL`. -/
abbrev GKey := Option String × Option ℚ

/-- One joined row of the `spool_consumptions_in_line` query (lines 413-425):
a SpoolConsumption whose voucher lies on the given line, paired with the
inventory item it references.  Inner joins drop dangling references. -/
def joinedSpoolRows (db : DB) (p : Nat) (l : String) : List (GKey × ℚ) :=
  db.spoolConsumptions.filterMap (fun sc =>
    match db.mivRecords.find? (fun r => decide (r.id = sc.miv_record_id)),
          db.spoolItems.find? (fun si => decide (si.id = sc.spool_item_id)) with
    | some r, some si =>
        if decide (r.project_id = p) && decide (r.line_no = l) then
          some ((si.component_type.map toUpperStr, si.p1_bore), sc.used_qty)
        else none
    | _, _ => none)

/-- Accumulate a joined row into the grouped usage dictionary
(the SQL `group_by` / Python dict of lines 423-431). -/
def addGroup : List (GKey × ℚ) → GKey → ℚ → List (GKey × ℚ)
  | [], k, q => [(k, q)]
  | e :: m, k, q => if decide (e.1 = k) then (e.1, e.2 + q) :: m else e :: addGroup m k q

/-- `spool_usage_map.get(key, 0)`. -/
def lookupG (m : List (GKey × ℚ)) (k : GKey) : ℚ :=
  match m.find? (fun e => decide (e.1 = k)) with
  | some e => e.2
  | none => 0

/-- The `spool_usage_map` of lines 427-431. -/
def spoolUsageMap (db : DB) (p : Nat) (l : String) : List (GKey × ℚ) :=
  (joinedSpoolRows db p l).foldl (fun m e => addGroup m e.1 e.2) []

/-- `mto_item.item_type and 'pipe' in mto_item.item_type.lower()` (line 439). -/
def mtoIsPipe (t : Option String) : Bool :=
  match t with
  | none => false
  | some s => strContains (toLowerStr s) "pipe"

/-- `total_required = length_m if is_pipe else quantity`, with `or 0`
(lines 439-440, 455, 465). -/
def requiredOf (it : MTOItem) : ℚ :=
  (if mtoIsPipe it.item_type then it.length_m else it.quantity).getD 0

/-- The `spool_used` accumulation of lines 450-452: iterate the
equivalence set (a Python set, hence each label once) and add the grouped
map entry for `(eq_type, mto_item.p1_bore_in)`. -/
def spoolUsedFor (db : DB) (p : Nat) (l : String) (it : MTOItem) : ℚ :=
  (((spoolEquivalentsMTO it.item_type).dedup).map
    (fun t => lookupG (spoolUsageMap db p l) (some t, it.p1_bore_in))).sum

/-- `total_used = (direct_used or 0) + spool_used` (line 454). -/
def usedOf (db : DB) (p : Nat) (l : String) (it : MTOItem) : ℚ :=
  directUsed db it.id + spoolUsedFor db p l it

/-- The freshly computed progress row of one MTO item
(the loop body, lines 437-469).  The source stamps each row with
`datetime.now()`, modelled by the `now` parameter. -/
def progressRowFor (db : DB) (p : Nat) (l : String) (now : Nat) (it : MTOItem) : MTOProgress :=
  { mto_item_id := it.id
    project_id := p
    line_no := l
    item_code := it.item_code
    description := it.description
    unit := it.unit
    total_qty := some (round2 (requiredOf it))
    used_qty := some (round2 (usedOf db p l it))
    remaining_qty := some (round2 (max 0 (requiredOf it - usedOf db p l it)))
    last_updated := now }

/-- The bulk-inserted rows of one rebuild. -/
def rowsFor (db : DB) (p : Nat) (l : String) (now : Nat) : List MTOProgress :=
  (lineItems db p l).map (progressRowFor db p l now)

/-- `rebuild_mto_progress_for_line` (data_manager.py 390-485): delete all
progress rows of the line's item ids, then bulk-insert fresh rows; a line
with no MTO items returns unchanged (line 410-411). -/
def rebuild_mto_progress_for_line (db : DB) (p : Nat) (l : String) (now : Nat) : DB :=
  if (lineItems db p l).isEmpty then db
  else
    { db with progress :=
        (db.progress.filter
          (fun pr => !(((lineItems db p l).map (fun it => it.id)).contains pr.mto_item_id)))
          ++ rowsFor db p l now }

/-! ## Inventory Pool operations -/

/-- `"PIPE" in (spool_item.component_type or "").upper()`
(data_manager.py lines 190, 260, 291, 356): decides which numeric field
of the item is debited or credited. -/
def modeIsPipe (si : SpoolItem) : Bool :=
  strContains (toUpperStr (si.component_type.getD "")) "PIPE"

/-- Add `δ` to the mode-selected field of an item, treating a missing
value as 0 — exactly the compensation updates
`length = (length or 0) + qty` / `qty_available = (qty_available or 0) + qty`
(lines 262-264 and 358-360); with `δ < 0` it also describes a successful
allocation decrement (see `processSpoolList`). -/
def touchItem (si : SpoolItem) (δ : ℚ) : SpoolItem :=
  if modeIsPipe si then { si with length := some (si.length.getD 0 + δ) }
  else { si with qty_available := some (si.qty_available.getD 0 + δ) }

/-- Update the first element satisfying `p` — the ORM mutates the single
row returned by `session.get` (primary keys are unique). -/
def updFirst (p : α → Bool) (f : α → α) : List α → List α
  | [] => []
  | x :: xs => if p x then f x :: xs else x :: updFirst p f xs

/-- Adjust the availability of item `i` by `δ`. -/
def tf (i : Nat) (δ : ℚ) (items : List SpoolItem) : List SpoolItem :=
  updFirst (fun si => decide (si.id = i)) (fun si => touchItem si δ) items

/-- One compensation step of voucher deletion or edit
(data_manager.py 257-264 and 353-360): look the item up by id; if it no
longer exists the step is silently skipped, otherwise `used_qty` is added
back to the mode-selected field. -/
def compStep (items : List SpoolItem) (c : SpoolConsumption) : List SpoolItem :=
  match items.find? (fun si => decide (si.id = c.spool_item_id)) with
  | none => items
  | some _ => tf c.spool_item_id c.used_qty items

/-! ## Allocation Transaction Coordinator -/

/-- A direct-consumption input line (`consumption_items` entries). -/
structure DirectItem where
  mto_item_id : Nat
  used_qty : ℚ
deriving DecidableEq, Repr

/-- A spool-withdrawal input line (`spool_consumption_items` entries). -/
structure SpoolReq where
  spool_item_id : Nat
  used_qty : ℚ
deriving DecidableEq, Repr

/-- The `data_point` handed to the anomaly-check hook (lines 165-169). -/
structure AnomalyPoint where
  used_qty : ℚ
  total_qty : ℚ
  timestamp : Nat
deriving DecidableEq, Repr

/-- The `form_data` dictionary of `register_miv_record`. -/
structure FormData where
  lineNo : String
  mivTag : String
  location : String
  status : String
  comment : String
  registeredFor : String
  registeredBy : String
  isComplete : Bool
deriving DecidableEq, Repr

/-- Autoincremented primary key of the next voucher header. -/
def freshMivId (db : DB) : Nat :=
  (db.mivRecords.map (fun r => r.id)).foldl max 0 + 1

/-- `mto_info_map.get(item_id)` (lines 154-161): the map is a dict
comprehension over the progress query, so a later row for the same id
overwrites an earlier one, and a row with NULL `total_qty` behaves like
an absent entry at the `is not None` test. -/
def progressTotalFor (progress : List MTOProgress) (itemId : Nat) : Option ℚ :=
  match (progress.filter (fun pr => decide (pr.mto_item_id = itemId))).getLast? with
  | some row => row.total_qty
  | none => none

/-- The direct-consumption loop of `register_miv_record` (lines 160-178):
per line, invoke the anomaly hook when the progress map knows the item,
then append an `MTOConsumption`.  The hook models
`self.check_for_anomaly`; an `Except.error` is an exception escaping it,
which aborts the enclosing transaction. -/
def processDirect (progress : List MTOProgress) (mivId now : Nat)
    (hook : AnomalyPoint → Except Unit Bool) :
    List DirectItem → Option (List MTOConsumption)
  | [] => some []
  | it :: rest =>
    let step : Option Unit :=
      match progressTotalFor progress it.mto_item_id with
      | some t =>
        match hook { used_qty := it.used_qty, total_qty := t, timestamp := now } with
        | Except.error _ => none
        | Except.ok _ => some ()
      | none => some ()
    match step with
    | none => none
    | some _ =>
      (processDirect progress mivId now hook rest).map
        (fun l => { mto_item_id := it.mto_item_id, miv_record_id := mivId
                    used_qty := it.used_qty, timestamp := now } :: l)

/-- The derived per-withdrawal comment fragment
(line 210-211; numeric formatting abstracted by `ratStr`). -/
def noteFor (q : ℚ) (isP : Bool) (ct : String) (sid : String) : String :=
  ratStr q ++ " " ++ (if isP then "m" else "عدد") ++ " از " ++ ct ++ " (اسپول: " ++ sid ++ ")"

/-- The spool-withdrawal loop shared by `register_miv_record`
(lines 181-211) and `update_miv_items` (lines 283-313): for each request,
look up the item (`ValueError` when missing) and its container (the
`spool_item.spool` relationship — any of those failures aborts the
transaction), check the mode-selected availability — with a `None` field
the check or the in-place decrement itself raises — debit the item, and
append a `SpoolConsumption` plus a comment note.  Failure of any step
returns `none`: the caller rolls back the whole transaction. -/
def processSpoolList (items : List SpoolItem) (spools : List Spool) (mivId now : Nat) :
    List SpoolReq → Option (List SpoolItem × List SpoolConsumption × List String)
  | [] => some (items, [], [])
  | r :: rs =>
    match items.find? (fun si => decide (si.id = r.spool_item_id)) with
    | none => none
    | some si =>
      match spools.find? (fun sp => decide (sp.id = si.spool_id_fk)) with
      | none => none
      | some sp =>
        match (if modeIsPipe si then si.length else si.qty_available) with
        | none => none
        | some v =>
          if v < r.used_qty then none
          else
            match processSpoolList (tf r.spool_item_id (-r.used_qty) items) spools mivId now rs with
            | none => none
            | some (items', cons, notes) =>
              some (items',
                { spool_item_id := r.spool_item_id, spool_id := sp.id
                  miv_record_id := mivId, used_qty := r.used_qty, timestamp := now } :: cons,
                noteFor r.used_qty (modeIsPipe si) (si.component_type.getD "") sp.spool_id :: notes)

/-- Lines 213-219: append the spool summary to the voucher comment. -/
def appendSpoolNotes (c : String) (notes : List String) : String :=
  (if c = "" then "" else c ++ " | ") ++ "مصرف اسپول: " ++ String.intercalate ", " notes

/-- The voucher header built by `register_miv_record` (lines 134-145),
including the comment summary appended at lines 213-219. -/
def regRecord (project_id : Nat) (form : FormData) (notes : List String)
    (now newId : Nat) : MIVRecord :=
  { id := newId, project_id := project_id, line_no := form.lineNo
    miv_tag := form.mivTag, location := form.location, status := form.status
    comment := if notes.isEmpty then form.comment else appendSpoolNotes form.comment notes
    registered_for := form.registeredFor, registered_by := form.registeredBy
    last_updated := now, is_complete := form.isComplete }

/-- `register_miv_record` (data_manager.py 125-241).  The whole body runs
in one transaction whose rollback restores the original state, so every
failure returns `(false, db)`.  The `miv_tag` column carries a table-wide
`unique=True` constraint (models.py line 31) that fires when the header
INSERT is flushed (line 147), before the consumption loops.  On success
the commit is followed by a progress rebuild for the affected line. -/
def register_miv_record (db : DB) (project_id : Nat) (form : FormData)
    (cons : List DirectItem) (spoolReqs : List SpoolReq)
    (hook : AnomalyPoint → Except Unit Bool) (now : Nat) : Bool × DB :=
  if db.mivRecords.any (fun r => decide (r.miv_tag = form.mivTag)) then (false, db)
  else
    match processDirect db.progress (freshMivId db) now hook cons with
    | none => (false, db)
    | some newDirect =>
      match processSpoolList db.spoolItems db.spools (freshMivId db) now spoolReqs with
      | none => (false, db)
      | some (items', scons, notes) =>
        (true, rebuild_mto_progress_for_line
          { db with
              mivRecords := db.mivRecords ++ [regRecord project_id form notes now (freshMivId db)]
              mtoConsumptions := db.mtoConsumptions ++ newDirect
              spoolConsumptions := db.spoolConsumptions ++ scons
              spoolItems := items' }
          project_id form.lineNo now)

/-- `update_miv_items` (data_manager.py 243-332): compensate every old
spool consumption of the voucher (silently skipping dangling item
references), delete all its old ledger rows, then register the new lists.
The built spool notes are dead code there (the record comment is not
rewritten).  There is no anomaly check on this path. -/
def update_miv_items (db : DB) (rid : Nat) (items : List DirectItem)
    (spoolReqs : List SpoolReq) (now : Nat) : Bool × DB :=
  match db.mivRecords.find? (fun r => decide (r.id = rid)) with
  | none => (false, db)
  | some rec0 =>
    match processSpoolList
        ((db.spoolConsumptions.filter (fun c => decide (c.miv_record_id = rid))).foldl
          compStep db.spoolItems)
        db.spools rid now spoolReqs with
    | none => (false, db)
    | some (items', scons, _notes) =>
      (true, rebuild_mto_progress_for_line
        { db with
            spoolItems := items'
            mtoConsumptions :=
              db.mtoConsumptions.filter (fun c => !(decide (c.miv_record_id = rid))) ++
                items.map (fun it =>
                  { mto_item_id := it.mto_item_id, miv_record_id := rid
                    used_qty := it.used_qty, timestamp := now })
            spoolConsumptions :=
              db.spoolConsumptions.filter (fun c => !(decide (c.miv_record_id = rid))) ++ scons }
        rec0.project_id rec0.line_no now)

/-- `delete_miv_record` (data_manager.py 334-388): compensate every spool
consumption of the voucher (silently skipping dangling item references),
delete all its ledger rows and the header, then rebuild the line. -/
def delete_miv_record (db : DB) (rid : Nat) (now : Nat) : Bool × DB :=
  match db.mivRecords.find? (fun r => decide (r.id = rid)) with
  | none => (false, db)
  | some rec0 =>
    (true, rebuild_mto_progress_for_line
      { db with
          spoolItems :=
            (db.spoolConsumptions.filter (fun c => decide (c.miv_record_id = rid))).foldl
              compStep db.spoolItems
          mtoConsumptions :=
            db.mtoConsumptions.filter (fun c => !(decide (c.miv_record_id = rid)))
          spoolConsumptions :=
            db.spoolConsumptions.filter (fun c => !(decide (c.miv_record_id = rid)))
          mivRecords := db.mivRecords.filter (fun r => !(decide (r.id = rid))) }
      rec0.project_id rec0.line_no now)

/-! ## Offcut Optimizer (`get_optimized_spool_suggestion`, data_manager.py 2520-2592) -/

/-- SQL comparison `column > c`: a NULL column compares false. -/
def optGtB (o : Option ℚ) (c : ℚ) : Bool :=
  match o with
  | some v => decide (c < v)
  | none => false

/-- `get_mapped_spool_items` (data_manager.py 1619-1661): inventory items
whose stock is positive, whose uppercased component type lies in the
equivalence set of the requirement type, filtered by exact bore equality
when a bore is given.  A falsy type (`None` or the empty string) yields
no candidates. -/
def get_mapped_spool_items (db : DB) (t : Option String) (bore : Option ℚ) : List SpoolItem :=
  match t with
  | none => []
  | some s =>
    if s = "" then []
    else
      let equivs := equivalentsOf (trimStr (toUpperStr s))
      db.spoolItems.filter (fun si =>
        (optGtB si.qty_available (1/1000) || optGtB si.length (1/1000)) &&
        (match si.component_type.map toUpperStr with
         | some ct => decide (ct ∈ equivs)
         | none => false) &&
        (match bore with
         | none => true
         | some b => decide (si.p1_bore = some b)))

/-- The sort key of line 2551-2552: `(length or 0) - needed` for a
sufficient piece, `float('inf')` (here `none`) otherwise. -/
def candKey (need : ℚ) (si : SpoolItem) : Option ℚ :=
  let len := si.length.getD 0
  if need ≤ len then some (len - need) else none

/-- Strict order on sort keys, `none` being `float('inf')`. -/
def keyLT : Option ℚ → Option ℚ → Bool
  | some a, some b => decide (a < b)
  | some _, none => true
  | none, _ => false

/-- Reflexive order on sort keys. -/
def keyLE : Option ℚ → Option ℚ → Bool
  | _, none => true
  | none, some _ => false
  | some a, some b => decide (a ≤ b)

/-- Stable insertion: a later element is placed after every earlier
element with a strictly smaller key and before equal keys. -/
def insertBy (lt : α → α → Bool) (x : α) : List α → List α
  | [] => [x]
  | y :: ys => if lt y x then y :: insertBy lt x ys else x :: y :: ys

/-- Stable sort: the function computed by Python's stable
`list.sort(key=...)` for the strict key order `lt`. -/
def sortBy (lt : α → α → Bool) : List α → List α
  | [] => []
  | x :: xs => insertBy lt x (sortBy lt xs)

/-- The candidate ordering of line 2551-2552 (stable sort by `candKey`). -/
def sortCands (need : ℚ) (cs : List SpoolItem) : List SpoolItem :=
  sortBy (fun a b => keyLT (candKey need a) (candKey need b)) cs

/-- One proposed cut. -/
structure Selection where
  spool_item_id : Nat
  spool_label : String
  used_qty : ℚ
deriving DecidableEq, Repr

/-- The greedy loop of lines 2557-2567: stop once nothing is needed,
skip pieces of length ≤ 0.01 (or with no length), take
`min(needed, length)` from each remaining piece in sorted order; the
`spool_item.spool.spool_id` label lookup can fail (dangling container),
which aborts with an exception. -/
def greedyTake (spools : List Spool) (need : ℚ) :
    List SpoolItem → Option (List Selection × ℚ)
  | [] => some ([], need)
  | si :: rest =>
    if need ≤ 0 then some ([], need)
    else
      match si.length with
      | some len =>
        if (1/100 : ℚ) < len then
          match spools.find? (fun sp => decide (sp.id = si.spool_id_fk)) with
          | none => none
          | some sp =>
            let take := min need len
            (greedyTake spools (need - take) rest).map (fun out =>
              ({ spool_item_id := si.id, spool_label := sp.spool_id, used_qty := take } :: out.1,
               out.2))
        else greedyTake spools need rest
      | none => greedyTake spools need rest

/-- Per-requirement plan entry. -/
structure PlanItem where
  mto_desc : Option String
  selections : List Selection
deriving DecidableEq, Repr

/-- Result of the optimizer: no remaining pipe need, a plan with its
total reported offcut, or a failure (insufficient stock or an exception
caught by the wrapper). -/
inductive OptOut where
  | noNeed : OptOut
  | plan : List PlanItem → ℚ → OptOut
  | fail : OptOut
deriving DecidableEq, Repr

/-- The per-requirement loop of lines 2541-2585: sort the compatible
candidates, run the greedy take, fail when more than 0.01 is still
missing, and account waste only from the first sorted candidate
(comparing its length with the requirement's original remaining). -/
def optLoop (db : DB) : List MTOProgress → Option (List PlanItem × ℚ)
  | [] => some ([], 0)
  | pr :: rest =>
    match db.mtoItems.find? (fun it => decide (it.id = pr.mto_item_id)) with
    | none => none
    | some det =>
      let need := pr.remaining_qty.getD 0
      let cands := sortCands need (get_mapped_spool_items db det.item_type det.p1_bore_in)
      match greedyTake db.spools need cands with
      | none => none
      | some (sels, remaining) =>
        if (1/100 : ℚ) < remaining then none
        else
          let waste : Option ℚ :=
            match cands.head? with
            | some best =>
              match best.length with
              | some bl => some (if need < bl then bl - need else 0)
              | none => none
            | none => some 0
          match waste with
          | none => none
          | some w =>
            (optLoop db rest).map (fun out =>
              ({ mto_desc := pr.description, selections := sels } :: out.1, w + out.2))

/-- `get_optimized_spool_suggestion` (data_manager.py 2520-2592): the
needed rows are the line's progress rows with positive remaining whose
MTO item is a PIPE (`ilike` is case-insensitive containment). -/
def get_optimized_spool_suggestion (db : DB) (p : Nat) (l : String) : OptOut :=
  let needed := db.progress.filter (fun pr =>
    decide (pr.project_id = p) && decide (pr.line_no = l) &&
    optGtB pr.remaining_qty 0 &&
    (match db.mtoItems.find? (fun it => decide (it.id = pr.mto_item_id)) with
     | some it =>
       (match it.item_type with
        | some s => strContains (toUpperStr s) "PIPE"
        | none => false)
     | none => false))
  if needed.isEmpty then OptOut.noNeed
  else
    match optLoop db needed with
    | none => OptOut.fail
    | some (plans, waste) => OptOut.plan plans waste

/-! ## Derived characterisations and spec-side reference definitions -/

/-- The matching predicate the aggregator effectively applies to a joined
spool row: uppercased component type in the equivalence set and exact
bore equality (NULL equals only NULL). -/
def matchTB (us : List String) (b : Option ℚ) (k : GKey) : Bool :=
  (match k.1 with
   | some t => decide (t ∈ us)
   | none => false) && decide (k.2 = b)

/-- The ledger-level sum the aggregator's grouped lookups compute for one
requirement: all spool consumption on the line whose item's type lies in
the equivalence set and whose bore equals the requirement's bore exactly. -/
def spoolMatchSum (db : DB) (p : Nat) (l : String) (it : MTOItem) : ℚ :=
  (((joinedSpoolRows db p l).filter
      (fun e => matchTB (spoolEquivalentsMTO it.item_type) it.p1_bore_in e.1)).map
    (fun e => e.2)).sum

/-- The progress row of one MTO item expressed directly over ledger sums
(the reference shape the claims compare against). -/
def progressRowSpec (db : DB) (p : Nat) (l : String) (now : Nat) (it : MTOItem) : MTOProgress :=
  { mto_item_id := it.id
    project_id := p
    line_no := l
    item_code := it.item_code
    description := it.description
    unit := it.unit
    total_qty := some (round2 (requiredOf it))
    used_qty := some (round2 (directUsed db it.id + spoolMatchSum db p l it))
    remaining_qty :=
      some (round2 (max 0 (requiredOf it - (directUsed db it.id + spoolMatchSum db p l it))))
    last_updated := now }

/-- Modelled from the spec's words (spec 4.6, claim C1): spool consumption
on the line counts for a requirement when the item's type lies in the
equivalence set and `requirement.bore is null OR inventory_item.bore ==
requirement.bore` — a null requirement bore matches any item bore.  Used
only to compare the claimed behaviour with the code's. -/
def claimSpoolUsed (db : DB) (p : Nat) (l : String) (it : MTOItem) : ℚ :=
  (((joinedSpoolRows db p l).filter (fun e =>
      (match e.1.1 with
       | some t => decide (t ∈ spoolEquivalentsMTO it.item_type)
       | none => false) &&
      (decide (it.p1_bore_in = none) || decide (e.1.2 = it.p1_bore_in)))).map
    (fun e => e.2)).sum

/-- Modelled from the spec's words (spec 4.7, claim C7): the claimed
candidate order — sufficient pieces ascending by `length − remaining`,
then insufficient pieces in descending length.  Used only to compare the
claimed ordering with the code's. -/
def specCandOrder (need : ℚ) (a b : SpoolItem) : Bool :=
  let la := a.length.getD 0
  let lb := b.length.getD 0
  match decide (need ≤ la), decide (need ≤ lb) with
  | true, true => decide (la - need < lb - need)
  | true, false => true
  | false, true => false
  | false, false => decide (lb < la)

/-- The candidate list ordered as claim C7 describes it. -/
def specSortCands (need : ℚ) (cs : List SpoolItem) : List SpoolItem :=
  sortBy (specCandOrder need) cs

/-- Progress rows with the rebuild timestamp blanked, to compare rebuild
outputs up to `last_updated`. -/
def eraseTs (pr : MTOProgress) : MTOProgress := { pr with last_updated := 0 }

/-- An anomaly hook that returns normally (verdict `b`). -/
def okHook (b : Bool) : AnomalyPoint → Except Unit Bool := fun _ => Except.ok b

/-- An anomaly hook whose evaluation raises. -/
def raiseHook : AnomalyPoint → Except Unit Bool := fun _ => Except.error ()

/-! ## Concrete states used by witnesses and counterexamples -/

/-- An ELBOW requirement with no bore constraint. -/
def exItem1 : MTOItem :=
  { id := 1, project_id := 1, line_no := "L", item_type := some "ELBOW"
    item_code := some "EC", description := some "d", unit := some "PCS"
    p1_bore_in := none, length_m := none, quantity := some 10 }

/-- A line with a bore-less ELBOW requirement and a spool withdrawal of 30
from an ELB item of bore 6. -/
def exDB1 : DB :=
  { mivRecords := [⟨1, 1, "L", "T", "", "", "", "", "", 0, false⟩]
    mtoItems := [exItem1]
    mtoConsumptions := []
    spools := [⟨1, "S1"⟩]
    spoolItems := [⟨1, 1, some "ELB", some 6, some 100, none⟩]
    spoolConsumptions := [⟨1, 1, 1, 30, 0⟩]
    progress := [] }

/-- A form shared by the registration examples. -/
def exForm : FormData :=
  { lineNo := "L", mivTag := "TAG1", location := "loc", status := "st", comment := ""
    registeredFor := "rf", registeredBy := "rb", isComplete := false }

/-- A pool with a single 50-length PIPE item. -/
def exDB2 : DB :=
  { mivRecords := [], mtoItems := [], mtoConsumptions := [], spools := [⟨1, "S1"⟩]
    spoolItems := [⟨1, 1, some "PIPE", some 6, none, some 50⟩]
    spoolConsumptions := [], progress := [] }

/-- A pool with a single PIPE item of available length 1.99. -/
def exDB2e : DB :=
  { mivRecords := [], mtoItems := [], mtoConsumptions := [], spools := [⟨1, "S1"⟩]
    spoolItems := [⟨1, 1, some "PIPE", some 6, none, some (199/100)⟩]
    spoolConsumptions := [], progress := [] }

/-- A pool with a 50-length PIPE item and a count-mode ELB item of
available quantity 5, for a registration that performs a direct write and
a successful count-mode spool write before hitting an insufficient
length-mode line. -/
def exDB2w : DB :=
  { mivRecords := [], mtoItems := [], mtoConsumptions := [], spools := [⟨1, "S1"⟩]
    spoolItems := [⟨1, 1, some "PIPE", some 6, none, some 50⟩,
                   ⟨2, 1, some "ELB", none, some 5, none⟩]
    spoolConsumptions := [], progress := [] }

/-- The Scenario-1 state: a 100 m PIPE requirement of bore 6 and a
50-length PIPE inventory item of bore 6. -/
def exDB3 : DB :=
  { mivRecords := []
    mtoItems := [{ id := 1, project_id := 1, line_no := "L", item_type := some "PIPE"
                   item_code := some "PC", description := some "d", unit := some "m"
                   p1_bore_in := some 6, length_m := some 100, quantity := none }]
    mtoConsumptions := [], spools := [⟨1, "S1"⟩]
    spoolItems := [⟨1, 1, some "PIPE", some 6, none, some 50⟩]
    spoolConsumptions := [], progress := [] }

/-- A TEE requirement whose only direct consumption is 0.001. -/
def exDB4 : DB :=
  { mivRecords := [⟨1, 1, "L", "T", "", "", "", "", "", 0, false⟩]
    mtoItems := [{ id := 1, project_id := 1, line_no := "L", item_type := some "TEE"
                   item_code := some "TC", description := some "d", unit := some "PCS"
                   p1_bore_in := none, length_m := none, quantity := some 10 }]
    mtoConsumptions := [⟨1, 1, 1/1000, 0⟩]
    spools := [], spoolItems := [], spoolConsumptions := [], progress := [] }

/-- A state with one progress row (so the anomaly hook is invoked for
item 1). -/
def exDB5 : DB :=
  { mivRecords := [], mtoItems := [], mtoConsumptions := [], spools := []
    spoolItems := [], spoolConsumptions := []
    progress := [⟨1, 1, "L", some "c", some "d", some "u", some 100, some 0, some 100, 0⟩] }

/-- The Scenario-3 state: a PIPE requirement with remaining 12 and
candidate pieces of lengths 15, 40 and 5. -/
def exDB7 : DB :=
  { mivRecords := []
    mtoItems := [{ id := 1, project_id := 1, line_no := "L", item_type := some "PIPE"
                   item_code := some "PC", description := some "d", unit := some "m"
                   p1_bore_in := none, length_m := some 100, quantity := none }]
    mtoConsumptions := [], spools := [⟨1, "S1"⟩]
    spoolItems := [⟨1, 1, some "PIPE", none, none, some 15⟩,
                   ⟨2, 1, some "PIPE", none, none, some 40⟩,
                   ⟨3, 1, some "PIPE", none, none, some 5⟩]
    spoolConsumptions := []
    progress := [⟨1, 1, "L", some "PC", some "d", some "m", some 100, some 88, some 12, 0⟩] }

/-- Two insufficient pipe candidates of lengths 5 then 8. -/
def exPipe5 : SpoolItem := ⟨1, 1, some "PIPE", none, none, some 5⟩

def exPipe8 : SpoolItem := ⟨2, 1, some "PIPE", none, none, some 8⟩

/-- A project-1 voucher already carries the tag `T`. -/
def exDB8 : DB :=
  { mivRecords := [⟨1, 1, "L", "T", "", "", "", "", "", 0, false⟩]
    mtoItems := [], mtoConsumptions := [], spools := [], spoolItems := []
    spoolConsumptions := [], progress := [] }

/-- A registration of tag `T` into project 2. -/
def exForm8 : FormData :=
  { lineNo := "L2", mivTag := "T", location := "", status := "", comment := ""
    registeredFor := "", registeredBy := "", isComplete := false }

/-- A voucher whose only SpoolConsumption references the nonexistent
item id 9; the pool holds an unrelated item of id 2. -/
def exDB10 : DB :=
  { mivRecords := [⟨1, 1, "L", "T", "", "", "", "", "", 0, false⟩]
    mtoItems := [], mtoConsumptions := [], spools := []
    spoolItems := [⟨2, 1, some "ELB", none, some 4, none⟩]
    spoolConsumptions := [⟨9, 1, 1, 30, 0⟩], progress := [] }

/-! ## Lemmas: the grouped spool-usage map computes ledger sums -/

theorem sum_filter_indicator (p : α → Bool) (f : α → ℚ) (l : List α) :
    ((l.filter p).map f).sum = (l.map (fun e => if p e then f e else 0)).sum := by
  induction l with
  | nil => rfl
  | cons x xs ih =>
    by_cases h : p x <;> simp [List.filter_cons, h, ih]

theorem sum_map_add (f g : α → ℚ) (l : List α) :
    (l.map (fun e => f e + g e)).sum = (l.map f).sum + (l.map g).sum := by
  induction l with
  | nil => simp
  | cons x xs ih => simp only [List.map_cons, List.sum_cons, ih]; ring

theorem lookupG_addGroup (m : List (GKey × ℚ)) (k k2 : GKey) (q : ℚ) :
    lookupG (addGroup m k q) k2 = lookupG m k2 + (if k2 = k then q else 0) := by
  induction m with
  | nil =>
    by_cases h : k2 = k
    · subst h; simp [addGroup, lookupG, List.find?]
    · have h2 : ¬ (k = k2) := fun hh => h hh.symm
      simp [addGroup, lookupG, List.find?, h, h2]
  | cons e m ih =>
    by_cases he : e.1 = k
    · by_cases h2 : e.1 = k2
      · have hk : k2 = k := h2 ▸ he
        simp [addGroup, lookupG, List.find?, he, h2, hk]
      · have hk : ¬ (k2 = k) := fun hh => h2 (he.symm ▸ hh.symm ▸ rfl)
        have hkk : ¬ (k = k2) := fun hh => hk hh.symm
        simp [addGroup, lookupG, List.find?, he, h2, hk, hkk]
    · by_cases h2 : e.1 = k2
      · have hk : ¬ (k2 = k) := fun hh => he (h2 ▸ hh ▸ rfl)
        simp [addGroup, lookupG, List.find?, he, h2, hk]
      · simpa [addGroup, lookupG, List.find?, he, h2] using ih

theorem lookupG_foldl (rows : List (GKey × ℚ)) (m : List (GKey × ℚ)) (k : GKey) :
    lookupG (rows.foldl (fun m e => addGroup m e.1 e.2) m) k =
      lookupG m k + ((rows.filter (fun e => decide (e.1 = k))).map (fun e => e.2)).sum := by
  induction rows generalizing m with
  | nil => simp
  | cons e rows ih =>
    by_cases h : e.1 = k
    · simp [List.foldl_cons, ih, lookupG_addGroup, List.filter_cons, h]
      ring
    · have h2 : ¬ (k = e.1) := fun hh => h hh.symm
      simp [List.foldl_cons, ih, lookupG_addGroup, List.filter_cons, h, h2]

theorem lookupG_spoolUsageMap (db : DB) (p : Nat) (l : String) (k : GKey) :
    lookupG (spoolUsageMap db p l) k =
      (((joinedSpoolRows db p l).filter (fun e => decide (e.1 = k))).map (fun e => e.2)).sum := by
  have := lookupG_foldl (joinedSpoolRows db p l) [] k
  simpa [spoolUsageMap, lookupG, List.find?] using this

theorem matchTB_cons (u : String) (us : List String) (b : Option ℚ) (k : GKey) :
    matchTB (u :: us) b k = ((decide (k = (some u, b))) || matchTB us b k) := by
  rcases k with ⟨k1, k2⟩
  cases k1 with
  | none => simp [matchTB]
  | some t =>
    by_cases h1 : t = u <;> by_cases h2 : k2 = b <;>
      simp [matchTB, List.mem_cons, h1, h2, Prod.ext_iff]

theorem matchTB_notmem (us : List String) (b : Option ℚ) (u : String) (hu : u ∉ us)
    (k : GKey) (hk : k = (some u, b)) : matchTB us b k = false := by
  subst hk
  simp [matchTB, hu]

theorem sum_filter_or (p q : α → Bool) (f : α → ℚ) (rows : List α)
    (hdisj : ∀ e, ¬(p e = true ∧ q e = true)) :
    ((rows.filter (fun e => p e || q e)).map f).sum =
      ((rows.filter p).map f).sum + ((rows.filter q).map f).sum := by
  induction rows with
  | nil => simp
  | cons e rows ih =>
    by_cases hp : p e = true
    · have hq : q e = false := by
        cases hq : q e
        · rfl
        · exact absurd ⟨hp, hq⟩ (hdisj e)
      simp [List.filter_cons, hp, hq, ih]
      ring
    · simp only [Bool.not_eq_true] at hp
      by_cases hq : q e = true
      · simp [List.filter_cons, hp, hq, ih]
        ring
      · simp only [Bool.not_eq_true] at hq
        simp [List.filter_cons, hp, hq, ih]

theorem sum_matchTB_cons (rows : List (GKey × ℚ)) (u : String) (us : List String)
    (b : Option ℚ) (hu : u ∉ us) :
    ((rows.filter (fun e => matchTB (u :: us) b e.1)).map (fun e => e.2)).sum =
      ((rows.filter (fun e => decide (e.1 = (some u, b)))).map (fun e => e.2)).sum +
      ((rows.filter (fun e => matchTB us b e.1)).map (fun e => e.2)).sum := by
  have hpred : (fun e : GKey × ℚ => matchTB (u :: us) b e.1) =
      fun e : GKey × ℚ => (decide (e.1 = (some u, b)) || matchTB us b e.1) :=
    funext (fun e => matchTB_cons u us b e.1)
  rw [hpred]
  refine sum_filter_or _ _ _ rows (fun e h => ?_)
  have h1 : e.1 = (some u, b) := of_decide_eq_true h.1
  exact absurd h.2 (by simp [matchTB_notmem us b u hu e.1 h1])

theorem sum_over_labels (rows : List (GKey × ℚ)) (b : Option ℚ) (us : List String)
    (h : us.Nodup) :
    (us.map (fun t =>
        ((rows.filter (fun e => decide (e.1 = (some t, b)))).map (fun e => e.2)).sum)).sum =
      ((rows.filter (fun e => matchTB us b e.1)).map (fun e => e.2)).sum := by
  induction us with
  | nil =>
    have hf : ∀ k : GKey, matchTB [] b k = false := by
      intro k; rcases k with ⟨k1, k2⟩; cases k1 <;> simp [matchTB]
    simp [hf]
  | cons u us ih =>
    have hu : u ∉ us := (List.nodup_cons.mp h).1
    have ih2 := ih (List.nodup_cons.mp h).2
    simp only [List.map_cons, List.sum_cons, ih2, sum_matchTB_cons rows u us b hu]

theorem spoolUsedFor_eq_matchSum (db : DB) (p : Nat) (l : String) (it : MTOItem) :
    spoolUsedFor db p l it = spoolMatchSum db p l it := by
  unfold spoolUsedFor spoolMatchSum
  have h1 : (fun t => lookupG (spoolUsageMap db p l) (some t, it.p1_bore_in)) =
      fun t => (((joinedSpoolRows db p l).filter
        (fun e => decide (e.1 = (some t, it.p1_bore_in)))).map (fun e => e.2)).sum :=
    funext (fun t => lookupG_spoolUsageMap db p l (some t, it.p1_bore_in))
  rw [h1, sum_over_labels (joinedSpoolRows db p l) it.p1_bore_in
        (spoolEquivalentsMTO it.item_type).dedup (List.nodup_dedup _)]
  have h2 : (fun e : GKey × ℚ => matchTB (spoolEquivalentsMTO it.item_type).dedup it.p1_bore_in e.1) =
      fun e : GKey × ℚ => matchTB (spoolEquivalentsMTO it.item_type) it.p1_bore_in e.1 := by
    funext e
    rcases e with ⟨⟨k1, k2⟩, q⟩
    cases k1 <;> simp [matchTB, List.mem_dedup]
  rw [h2]

theorem progressRowFor_eq_spec (db : DB) (p : Nat) (l : String) (now : Nat) (it : MTOItem) :
    progressRowFor db p l now it = progressRowSpec db p l now it := by
  unfold progressRowFor progressRowSpec usedOf
  rw [spoolUsedFor_eq_matchSum]

/-! ## Lemmas: shape and invariance of the rebuild -/

theorem rebuild_progress_eq (db : DB) (p : Nat) (l : String) (now : Nat) :
    (rebuild_mto_progress_for_line db p l now).progress =
      db.progress.filter
        (fun pr => !(((lineItems db p l).map (fun it => it.id)).contains pr.mto_item_id))
      ++ (lineItems db p l).map (progressRowSpec db p l now) := by
  have hrow : progressRowFor db p l now = progressRowSpec db p l now :=
    funext (fun it => progressRowFor_eq_spec db p l now it)
  unfold rebuild_mto_progress_for_line rowsFor
  by_cases h : (lineItems db p l).isEmpty
  · have hnil : lineItems db p l = [] := List.isEmpty_iff.mp h
    simp [h, hnil]
  · simp [h, hrow]

theorem rebuild_mivRecords (db : DB) (p : Nat) (l : String) (now : Nat) :
    (rebuild_mto_progress_for_line db p l now).mivRecords = db.mivRecords := by
  unfold rebuild_mto_progress_for_line
  by_cases h : (lineItems db p l).isEmpty <;> simp [h]

theorem rebuild_mtoItems (db : DB) (p : Nat) (l : String) (now : Nat) :
    (rebuild_mto_progress_for_line db p l now).mtoItems = db.mtoItems := by
  unfold rebuild_mto_progress_for_line
  by_cases h : (lineItems db p l).isEmpty <;> simp [h]

theorem rebuild_mtoConsumptions (db : DB) (p : Nat) (l : String) (now : Nat) :
    (rebuild_mto_progress_for_line db p l now).mtoConsumptions = db.mtoConsumptions := by
  unfold rebuild_mto_progress_for_line
  by_cases h : (lineItems db p l).isEmpty <;> simp [h]

theorem rebuild_spools (db : DB) (p : Nat) (l : String) (now : Nat) :
    (rebuild_mto_progress_for_line db p l now).spools = db.spools := by
  unfold rebuild_mto_progress_for_line
  by_cases h : (lineItems db p l).isEmpty <;> simp [h]

theorem rebuild_spoolItems (db : DB) (p : Nat) (l : String) (now : Nat) :
    (rebuild_mto_progress_for_line db p l now).spoolItems = db.spoolItems := by
  unfold rebuild_mto_progress_for_line
  by_cases h : (lineItems db p l).isEmpty <;> simp [h]

theorem rebuild_spoolConsumptions (db : DB) (p : Nat) (l : String) (now : Nat) :
    (rebuild_mto_progress_for_line db p l now).spoolConsumptions = db.spoolConsumptions := by
  unfold rebuild_mto_progress_for_line
  by_cases h : (lineItems db p l).isEmpty <;> simp [h]

theorem lineItems_congr (db₁ db : DB) (h : db₁.mtoItems = db.mtoItems) (p : Nat) (l : String) :
    lineItems db₁ p l = lineItems db p l := by
  unfold lineItems; rw [h]

theorem directUsed_congr (db₁ db : DB) (h : db₁.mtoConsumptions = db.mtoConsumptions) (i : Nat) :
    directUsed db₁ i = directUsed db i := by
  unfold directUsed; rw [h]

theorem joinedSpoolRows_congr (db₁ db : DB) (h1 : db₁.spoolConsumptions = db.spoolConsumptions)
    (h2 : db₁.mivRecords = db.mivRecords) (h3 : db₁.spoolItems = db.spoolItems)
    (p : Nat) (l : String) : joinedSpoolRows db₁ p l = joinedSpoolRows db p l := by
  unfold joinedSpoolRows; rw [h1, h2, h3]

theorem progressRowSpec_congr (db₁ db : DB)
    (hc : db₁.mtoConsumptions = db.mtoConsumptions)
    (hs : db₁.spoolConsumptions = db.spoolConsumptions)
    (hm : db₁.mivRecords = db.mivRecords) (hi : db₁.spoolItems = db.spoolItems)
    (p : Nat) (l : String) (now : Nat) (it : MTOItem) :
    progressRowSpec db₁ p l now it = progressRowSpec db p l now it := by
  unfold progressRowSpec spoolMatchSum
  rw [directUsed_congr db₁ db hc, joinedSpoolRows_congr db₁ db hs hm hi]

/-- Blanking the timestamp makes the freshly computed row independent of
the rebuild clock. -/
theorem eraseTs_rowSpec (db : DB) (p : Nat) (l : String) (t t₂ : Nat) (it : MTOItem) :
    eraseTs (progressRowSpec db p l t it) = eraseTs (progressRowSpec db p l t₂ it) := rfl

theorem filter_line_rows (db : DB) (p : Nat) (l : String) (t : Nat)
    (P : MTOProgress → Bool)
    (hP : ∀ pr, ((lineItems db p l).map (fun it => it.id)).contains pr.mto_item_id → P pr = false) :
    ((lineItems db p l).map (progressRowSpec db p l t)).filter P = [] := by
  refine List.filter_eq_nil_iff.mpr (fun pr hpr => ?_)
  rcases List.mem_map.mp hpr with ⟨it, hit, hrow⟩
  have hid : pr.mto_item_id = it.id := by rw [← hrow]; rfl
  have hmem : ((lineItems db p l).map (fun it => it.id)).contains pr.mto_item_id := by
    rw [hid]
    exact List.elem_eq_true_of_mem (List.mem_map.mpr ⟨it, hit, rfl⟩)
  simp [hP pr hmem]

theorem rebuild_twice_progress (db : DB) (p : Nat) (l : String) (t₁ t₂ : Nat) :
    (rebuild_mto_progress_for_line (rebuild_mto_progress_for_line db p l t₁) p l t₂).progress =
      db.progress.filter
        (fun pr => !(((lineItems db p l).map (fun it => it.id)).contains pr.mto_item_id))
      ++ (lineItems db p l).map (progressRowSpec db p l t₂) := by
  have hmt := rebuild_mtoItems db p l t₁
  have hc := rebuild_mtoConsumptions db p l t₁
  have hs := rebuild_spoolConsumptions db p l t₁
  have hm := rebuild_mivRecords db p l t₁
  have hi := rebuild_spoolItems db p l t₁
  have hline := lineItems_congr (rebuild_mto_progress_for_line db p l t₁) db hmt p l
  have hspec : progressRowSpec (rebuild_mto_progress_for_line db p l t₁) p l t₂
      = progressRowSpec db p l t₂ :=
    funext (fun it => progressRowSpec_congr _ db hc hs hm hi p l t₂ it)
  rw [rebuild_progress_eq (rebuild_mto_progress_for_line db p l t₁) p l t₂, hline, hspec,
      rebuild_progress_eq db p l t₁, List.filter_append]
  have hff : (db.progress.filter
        (fun pr => !(((lineItems db p l).map (fun it => it.id)).contains pr.mto_item_id))).filter
        (fun pr => !(((lineItems db p l).map (fun it => it.id)).contains pr.mto_item_id)) =
      db.progress.filter
        (fun pr => !(((lineItems db p l).map (fun it => it.id)).contains pr.mto_item_id)) := by
    rw [List.filter_filter]
    refine List.filter_congr (fun a _ => ?_)
    cases hPa : (!(((lineItems db p l).map (fun it => it.id)).contains a.mto_item_id)) <;>
      simp [hPa]
  have hrows : ((lineItems db p l).map (progressRowSpec db p l t₁)).filter
      (fun pr => !(((lineItems db p l).map (fun it => it.id)).contains pr.mto_item_id)) = [] :=
    filter_line_rows db p l t₁ _ (fun pr h => by simp only [h, Bool.not_true])
  rw [hff, hrows, List.append_nil]

/-! ## Lemmas: allocation and compensation are inverse on the pool -/

theorem touchItem_component (si : SpoolItem) (δ : ℚ) :
    (touchItem si δ).component_type = si.component_type := by
  unfold touchItem; split <;> rfl

theorem touchItem_id (si : SpoolItem) (δ : ℚ) : (touchItem si δ).id = si.id := by
  unfold touchItem; split <;> rfl

theorem modeIsPipe_touch (si : SpoolItem) (δ : ℚ) :
    modeIsPipe (touchItem si δ) = modeIsPipe si := by
  unfold modeIsPipe; rw [touchItem_component]

theorem touch_touch (si : SpoolItem) (δ ε : ℚ) :
    touchItem (touchItem si δ) ε = touchItem (touchItem si ε) δ := by
  have hc : si.length.getD 0 + δ + ε = si.length.getD 0 + ε + δ := by ring
  have hq : si.qty_available.getD 0 + δ + ε = si.qty_available.getD 0 + ε + δ := by ring
  by_cases h : modeIsPipe si
  · have e1 : ∀ γ : ℚ, touchItem si γ = { si with length := some (si.length.getD 0 + γ) } :=
      fun γ => by unfold touchItem; rw [if_pos h]
    have step : ∀ γ ε2 : ℚ,
        touchItem (touchItem si γ) ε2 = { si with length := some (si.length.getD 0 + γ + ε2) } := by
      intro γ ε2
      rw [e1 γ]
      unfold touchItem
      rw [if_pos (show modeIsPipe { si with length := some (si.length.getD 0 + γ) } = true from h)]
      rfl
    rw [step δ ε, step ε δ, hc]
  · have e1 : ∀ γ : ℚ,
        touchItem si γ = { si with qty_available := some (si.qty_available.getD 0 + γ) } :=
      fun γ => by
        unfold touchItem
        rw [if_neg (show ¬ modeIsPipe si = true from h)]
    have step : ∀ γ ε2 : ℚ, touchItem (touchItem si γ) ε2 =
        { si with qty_available := some (si.qty_available.getD 0 + γ + ε2) } := by
      intro γ ε2
      rw [e1 γ]
      unfold touchItem
      rw [if_neg (show ¬ modeIsPipe
        { si with qty_available := some (si.qty_available.getD 0 + γ) } = true from fun hh => h hh)]
      rfl
    rw [step δ ε, step ε δ, hq]

theorem tf_map_id (i : Nat) (δ : ℚ) (items : List SpoolItem) :
    (tf i δ items).map (fun si => si.id) = items.map (fun si => si.id) := by
  induction items with
  | nil => rfl
  | cons x xs ih =>
    unfold tf updFirst
    by_cases h : decide (x.id = i) = true
    · simp [h, touchItem_id, tf] at ih ⊢
    · simp [h, touchItem_id, tf] at ih ⊢
      exact ih

theorem find_id_isSome_eq_contains (items : List SpoolItem) (j : Nat) :
    (items.find? (fun si => decide (si.id = j))).isSome =
      ((items.map (fun si => si.id)).contains j) := by
  induction items with
  | nil => rfl
  | cons x xs ih =>
    by_cases h : x.id = j
    · simp [List.find?, h]
    · have h2 : ¬ (j = x.id) := fun hh => h hh.symm
      simp [List.find?, h, h2, ih]

theorem find_isSome_tf (i j : Nat) (δ : ℚ) (items : List SpoolItem) :
    ((tf i δ items).find? (fun si => decide (si.id = j))).isSome =
      ((items.find? (fun si => decide (si.id = j)))).isSome := by
  rw [find_id_isSome_eq_contains, find_id_isSome_eq_contains, tf_map_id]

theorem tf_comm (i j : Nat) (δ ε : ℚ) (items : List SpoolItem) :
    tf i δ (tf j ε items) = tf j ε (tf i δ items) := by
  induction items with
  | nil => rfl
  | cons x xs ih =>
    by_cases hi : x.id = i <;> by_cases hj : x.id = j
    · have hii : i = j := hi ▸ hj
      subst hii
      simp [tf, updFirst, hi, touchItem_id, touch_touch]
    · have hij : ¬ (i = j) := fun hh => hj (hh ▸ hi)
      simp [tf, updFirst, hi, hj, hij, touchItem_id]
    · have hij : ¬ (j = i) := fun hh => hi (hh ▸ hj)
      simp [tf, updFirst, hi, hj, hij, touchItem_id]
    · simp only [tf, updFirst, hi, hj, decide_eq_true_eq, if_neg hi, if_neg hj]
      simpa [tf] using ih

theorem compStep_tf (i : Nat) (δ : ℚ) (items : List SpoolItem) (c : SpoolConsumption) :
    compStep (tf i δ items) c = tf i δ (compStep items c) := by
  unfold compStep
  cases hfind : items.find? (fun si => decide (si.id = c.spool_item_id)) with
  | none =>
    have h4 := find_isSome_tf i c.spool_item_id δ items
    rw [hfind] at h4
    cases h3 : (tf i δ items).find? (fun si => decide (si.id = c.spool_item_id)) with
    | none => rfl
    | some w => rw [h3] at h4; simp at h4
  | some v =>
    have h2 : ((tf i δ items).find? (fun si => decide (si.id = c.spool_item_id))).isSome = true := by
      rw [find_isSome_tf, hfind]; rfl
    rcases Option.isSome_iff_exists.mp h2 with ⟨w, hw⟩
    rw [hw]
    exact (tf_comm i c.spool_item_id δ c.used_qty items).symm

theorem foldl_comp_tf (cs : List SpoolConsumption) (z : List SpoolItem) (i : Nat) (δ : ℚ) :
    List.foldl compStep (tf i δ z) cs = tf i δ (List.foldl compStep z cs) := by
  induction cs generalizing z with
  | nil => rfl
  | cons c cs ih =>
    simp only [List.foldl_cons, compStep_tf, ih]

theorem tf_cancel (items : List SpoolItem) (i : Nat) (q : ℚ) (si : SpoolItem)
    (hfind : items.find? (fun x => decide (x.id = i)) = some si)
    (hsome : ((if modeIsPipe si then si.length else si.qty_available)).isSome = true) :
    tf i q (tf i (-q) items) = items := by
  induction items with
  | nil => simp [List.find?] at hfind
  | cons x xs ih =>
    by_cases hx : x.id = i
    · have hsi : x = si := by
        rw [List.find?_cons_of_pos _ (by simpa using hx)] at hfind
        exact Option.some.injEq _ _ ▸ hfind
      subst hsi
      have hxid : (touchItem x (-q)).id = i := by rw [touchItem_id]; exact hx
      simp only [tf, updFirst, decide_eq_true_eq, if_pos hx, if_pos hxid]
      have hcancel : touchItem (touchItem x (-q)) q = x := by
        by_cases hp : modeIsPipe x
        · rw [if_pos hp] at hsome
          rcases Option.isSome_iff_exists.mp hsome with ⟨v, hv⟩
          have e1 : touchItem x (-q) = { x with length := some (v + -q) } := by
            unfold touchItem; rw [if_pos hp, hv]; rfl
          rw [e1]
          unfold touchItem
          rw [if_pos (show modeIsPipe { x with length := some (v + -q) } = true from hp)]
          have : v + -q + q = v := by ring
          cases x
          simp only at hv
          simp [this, hv]
        · rw [if_neg hp] at hsome
          rcases Option.isSome_iff_exists.mp hsome with ⟨v, hv⟩
          have e1 : touchItem x (-q) = { x with qty_available := some (v + -q) } := by
            unfold touchItem; rw [if_neg hp, hv]; rfl
          rw [e1]
          unfold touchItem
          rw [if_neg (show ¬ modeIsPipe
            { x with qty_available := some (v + -q) } = true from fun hh => hp hh)]
          have : v + -q + q = v := by ring
          cases x
          simp only at hv
          simp [this, hv]
      rw [hcancel]
    · rw [List.find?_cons_of_neg _ (by simpa using hx)] at hfind
      simp only [tf, updFirst, decide_eq_true_eq, if_neg hx]
      have := ih hfind
      simp only [tf] at this
      rw [this]

/-! ## Lemmas: the spool-withdrawal loop -/

theorem processSpoolList_cons_inv (spools : List Spool) (mivId now : Nat) (r : SpoolReq)
    (rs : List SpoolReq) (items items' : List SpoolItem) (cons : List SpoolConsumption)
    (notes : List String)
    (h : processSpoolList items spools mivId now (r :: rs) = some (items', cons, notes)) :
    ∃ si sp v cons' notes',
      items.find? (fun x => decide (x.id = r.spool_item_id)) = some si ∧
      spools.find? (fun x => decide (x.id = si.spool_id_fk)) = some sp ∧
      (if modeIsPipe si then si.length else si.qty_available) = some v ∧
      ¬ (v < r.used_qty) ∧
      processSpoolList (tf r.spool_item_id (-r.used_qty) items) spools mivId now rs =
        some (items', cons', notes') ∧
      cons = { spool_item_id := r.spool_item_id, spool_id := sp.id, miv_record_id := mivId
               used_qty := r.used_qty, timestamp := now } :: cons' ∧
      notes = noteFor r.used_qty (modeIsPipe si) (si.component_type.getD "") sp.spool_id
        :: notes' := by
  unfold processSpoolList at h
  repeat' split at h
  all_goals try exact Option.noConfusion h
  rename_i xo si hfind yo sp hsp zo v havail hlt wo items₂ cons₂ notes₂ hrest
  simp only [Option.some.injEq, Prod.mk.injEq] at h
  rcases h with ⟨h1, h2, h3⟩
  exact ⟨si, sp, v, cons₂, notes₂, hfind, hsp, havail, hlt,
    h1 ▸ hrest, h2.symm, h3.symm⟩

theorem process_map_id (spools : List Spool) (mivId now : Nat) (rs : List SpoolReq)
    (items items' : List SpoolItem) (cons : List SpoolConsumption) (notes : List String)
    (h : processSpoolList items spools mivId now rs = some (items', cons, notes)) :
    items'.map (fun si => si.id) = items.map (fun si => si.id) := by
  induction rs generalizing items cons notes with
  | nil =>
    unfold processSpoolList at h
    simp only [Option.some.injEq, Prod.mk.injEq] at h
    rw [← h.1]
  | cons r rs ih =>
    rcases processSpoolList_cons_inv spools mivId now r rs items items' cons notes h with
      ⟨si, sp, v, cons', notes', hfind, hsp, havail, hlt, hrest, hcons, hnotes⟩
    rw [ih _ _ _ hrest, tf_map_id]

theorem process_cons_miv (spools : List Spool) (mivId now : Nat) (rs : List SpoolReq)
    (items items' : List SpoolItem) (cons : List SpoolConsumption) (notes : List String)
    (h : processSpoolList items spools mivId now rs = some (items', cons, notes)) :
    ∀ c ∈ cons, c.miv_record_id = mivId := by
  induction rs generalizing items cons notes with
  | nil =>
    unfold processSpoolList at h
    simp only [Option.some.injEq, Prod.mk.injEq] at h
    intro c hc
    rw [← h.2.1] at hc
    simp at hc
  | cons r rs ih =>
    rcases processSpoolList_cons_inv spools mivId now r rs items items' cons notes h with
      ⟨si, sp, v, cons', notes', hfind, hsp, havail, hlt, hrest, hcons, hnotes⟩
    intro c hc
    rw [hcons] at hc
    rcases List.mem_cons.mp hc with hc1 | hc2
    · rw [hc1]
    · exact ih _ _ _ hrest c hc2

theorem process_roundtrip (spools : List Spool) (mivId now : Nat) (rs : List SpoolReq)
    (items items' : List SpoolItem) (cons : List SpoolConsumption) (notes : List String)
    (h : processSpoolList items spools mivId now rs = some (items', cons, notes)) :
    List.foldl compStep items' cons = items := by
  induction rs generalizing items cons notes with
  | nil =>
    unfold processSpoolList at h
    simp only [Option.some.injEq, Prod.mk.injEq] at h
    rw [← h.1, ← h.2.1]
    rfl
  | cons r rs ih =>
    rcases processSpoolList_cons_inv spools mivId now r rs items items' cons notes h with
      ⟨si, sp, v, cons', notes', hfind, hsp, havail, hlt, hrest, hcons, hnotes⟩
    rw [hcons]
    simp only [List.foldl_cons]
    have hidseq : items'.map (fun si => si.id) = items.map (fun si => si.id) := by
      rw [process_map_id spools mivId now rs _ _ _ _ hrest, tf_map_id]
    have hfindSome :
        ((items'.find? (fun x => decide (x.id = r.spool_item_id))).isSome) = true := by
      rw [find_id_isSome_eq_contains, hidseq, ← find_id_isSome_eq_contains, hfind]
      rfl
    rcases Option.isSome_iff_exists.mp hfindSome with ⟨w, hw⟩
    have hcomp : compStep items'
        { spool_item_id := r.spool_item_id, spool_id := sp.id
          miv_record_id := mivId, used_qty := r.used_qty, timestamp := now } =
        tf r.spool_item_id r.used_qty items' := by
      unfold compStep
      rw [hw]
    rw [hcomp, foldl_comp_tf, ih _ _ _ hrest]
    exact tf_cancel items r.spool_item_id r.used_qty si hfind (by rw [havail]; rfl)

/-! ## Lemmas: the direct-consumption loop and its anomaly hook -/

theorem processDirect_ok (progress : List MTOProgress) (mivId now : Nat) (b : Bool)
    (cons : List DirectItem) :
    processDirect progress mivId now (okHook b) cons =
      some (cons.map (fun it =>
        { mto_item_id := it.mto_item_id, miv_record_id := mivId
          used_qty := it.used_qty, timestamp := now })) := by
  induction cons with
  | nil => rfl
  | cons it rest ih =>
    unfold processDirect
    cases hp : progressTotalFor progress it.mto_item_id <;> simp [okHook, ih]

theorem processDirect_hook_irrelevant (progress : List MTOProgress) (mivId now : Nat)
    (b₁ b₂ : Bool) (cons : List DirectItem) :
    processDirect progress mivId now (okHook b₁) cons =
      processDirect progress mivId now (okHook b₂) cons := by
  rw [processDirect_ok, processDirect_ok]

theorem processDirect_raise (progress : List MTOProgress) (mivId now : Nat)
    (cons : List DirectItem)
    (h : ∃ it ∈ cons, (progressTotalFor progress it.mto_item_id).isSome = true) :
    processDirect progress mivId now raiseHook cons = none := by
  induction cons with
  | nil => simp at h
  | cons it rest ih =>
    unfold processDirect
    cases hp : progressTotalFor progress it.mto_item_id with
    | some t => simp [raiseHook]
    | none =>
      rcases h with ⟨w, hw, hsome⟩
      rcases List.mem_cons.mp hw with h1 | h2
      · rw [h1] at hsome
        rw [hp] at hsome
        simp at hsome
      · simp only []
        rw [ih ⟨w, h2, hsome⟩]
        rfl

theorem processDirect_miv (progress : List MTOProgress) (mivId now : Nat)
    (hook : AnomalyPoint → Except Unit Bool) (cons : List DirectItem)
    (nd : List MTOConsumption) (h : processDirect progress mivId now hook cons = some nd) :
    ∀ c ∈ nd, c.miv_record_id = mivId := by
  induction cons generalizing nd with
  | nil =>
    unfold processDirect at h
    simp only [Option.some.injEq] at h
    intro c hc
    rw [← h] at hc
    simp at hc
  | cons it rest ih =>
    unfold processDirect at h
    repeat' split at h
    all_goals try exact Option.noConfusion h
    all_goals {
      rw [Option.map_eq_some'] at h
      rcases h with ⟨l, hl, hval⟩
      intro c hc
      rw [← hval] at hc
      rcases List.mem_cons.mp hc with h1 | h2
      · rw [h1]
      · exact ih l hl c h2 }

/-! ## Lemmas: fresh voucher ids and ledger filters -/

theorem le_foldl_max (l : List Nat) (a : Nat) : a ≤ l.foldl max a := by
  induction l generalizing a with
  | nil => exact Nat.le_refl a
  | cons x xs ih => exact Nat.le_trans (Nat.le_max_left a x) (ih (max a x))

theorem mem_le_foldl_max (l : List Nat) (a x : Nat) (h : x ∈ l) : x ≤ l.foldl max a := by
  induction l generalizing a with
  | nil => simp at h
  | cons y ys ih =>
    rcases List.mem_cons.mp h with h1 | h2
    · subst h1
      exact Nat.le_trans (Nat.le_max_right a x) (le_foldl_max ys (max a x))
    · exact ih (max a y) h2

theorem mivRecord_id_lt_fresh (db : DB) (r : MIVRecord) (h : r ∈ db.mivRecords) :
    r.id < freshMivId db := by
  have : r.id ≤ (db.mivRecords.map (fun r => r.id)).foldl max 0 :=
    mem_le_foldl_max _ 0 r.id (List.mem_map.mpr ⟨r, h, rfl⟩)
  exact Nat.lt_succ_of_le this

theorem find_append_of_none (p : α → Bool) (l₁ l₂ : List α)
    (h : ∀ x ∈ l₁, p x = false) : (l₁ ++ l₂).find? p = l₂.find? p := by
  induction l₁ with
  | nil => rfl
  | cons x xs ih =>
    simp only [List.cons_append, List.find?]
    rw [h x (List.mem_cons_self x xs)]
    exact ih (fun y hy => h y (List.mem_cons_of_mem x hy))

theorem filter_keep_of_ne (f : α → Nat) (rid : Nat) (l : List α)
    (h : ∀ c ∈ l, ¬ (f c = rid)) :
    l.filter (fun c => !(decide (f c = rid))) = l := by
  induction l with
  | nil => rfl
  | cons x xs ih =>
    have hx : ¬ (f x = rid) := h x (List.mem_cons_self x xs)
    simp only [List.filter_cons, hx, decide_eq_true_eq, if_pos, Bool.not_eq_true]
    rw [ih (fun y hy => h y (List.mem_cons_of_mem x hy))]
    simp [hx]

theorem filter_drop_of_eq (f : α → Nat) (rid : Nat) (l : List α)
    (h : ∀ c ∈ l, f c = rid) :
    l.filter (fun c => !(decide (f c = rid))) = [] := by
  induction l with
  | nil => rfl
  | cons x xs ih =>
    have hx : f x = rid := h x (List.mem_cons_self x xs)
    simp only [List.filter_cons, hx]
    rw [ih (fun y hy => h y (List.mem_cons_of_mem x hy))]
    simp

theorem filter_take_of_eq (f : α → Nat) (rid : Nat) (l : List α)
    (h : ∀ c ∈ l, f c = rid) :
    l.filter (fun c => decide (f c = rid)) = l := by
  induction l with
  | nil => rfl
  | cons x xs ih =>
    have hx : f x = rid := h x (List.mem_cons_self x xs)
    simp only [List.filter_cons, hx]
    rw [ih (fun y hy => h y (List.mem_cons_of_mem x hy))]
    simp

theorem filter_skip_of_ne (f : α → Nat) (rid : Nat) (l : List α)
    (h : ∀ c ∈ l, ¬ (f c = rid)) :
    l.filter (fun c => decide (f c = rid)) = [] := by
  induction l with
  | nil => rfl
  | cons x xs ih =>
    have hx : ¬ (f x = rid) := h x (List.mem_cons_self x xs)
    simp only [List.filter_cons, hx]
    rw [ih (fun y hy => h y (List.mem_cons_of_mem x hy))]
    simp [hx]

/-! ## Lemmas: successful registration and the register-delete round trip -/

theorem register_success_inv (db : DB) (project_id : Nat) (form : FormData)
    (cons : List DirectItem) (spoolReqs : List SpoolReq)
    (hook : AnomalyPoint → Except Unit Bool) (now : Nat)
    (h : (register_miv_record db project_id form cons spoolReqs hook now).1 = true) :
    ∃ nd items' scons notes,
      db.mivRecords.any (fun r => decide (r.miv_tag = form.mivTag)) = false ∧
      processDirect db.progress (freshMivId db) now hook cons = some nd ∧
      processSpoolList db.spoolItems db.spools (freshMivId db) now spoolReqs =
        some (items', scons, notes) ∧
      (register_miv_record db project_id form cons spoolReqs hook now).2 =
        rebuild_mto_progress_for_line
          { db with
              mivRecords :=
                db.mivRecords ++ [regRecord project_id form notes now (freshMivId db)]
              mtoConsumptions := db.mtoConsumptions ++ nd
              spoolConsumptions := db.spoolConsumptions ++ scons
              spoolItems := items' }
          project_id form.lineNo now := by
  unfold register_miv_record at h ⊢
  repeat' split at h
  all_goals try exact Bool.noConfusion h
  rename_i hdup xo nd hnd yo items' scons notes hout
  refine ⟨nd, items', scons, notes, by simpa using hdup, hnd, hout, ?_⟩
  rw [if_neg hdup]

theorem rebuild_progress_update (db dbMid : DB) (p : Nat) (l : String) (now now₂ : Nat)
    (hmt : dbMid.mtoItems = db.mtoItems) (hpr : dbMid.progress = db.progress) :
    rebuild_mto_progress_for_line
      { db with progress := (rebuild_mto_progress_for_line dbMid p l now).progress } p l now₂ =
    rebuild_mto_progress_for_line db p l now₂ := by
  have hline : lineItems dbMid p l = lineItems db p l := lineItems_congr dbMid db hmt p l
  by_cases hemp : (lineItems db p l).isEmpty
  · have hempM : (lineItems dbMid p l).isEmpty := by rw [hline]; exact hemp
    have h1 : rebuild_mto_progress_for_line dbMid p l now = dbMid := by
      unfold rebuild_mto_progress_for_line
      rw [if_pos hempM]
    have h3 : { db with progress := (rebuild_mto_progress_for_line dbMid p l now).progress } = db := by
      rw [h1, hpr]
    rw [h3]
  · have hR : (rebuild_mto_progress_for_line dbMid p l now).progress =
        db.progress.filter
          (fun pr => !(((lineItems db p l).map (fun it => it.id)).contains pr.mto_item_id))
        ++ (lineItems db p l).map (progressRowSpec dbMid p l now) := by
      rw [rebuild_progress_eq dbMid p l now, hline, hpr]
    have hfilter : ((rebuild_mto_progress_for_line dbMid p l now).progress).filter
        (fun pr => !(((lineItems db p l).map (fun it => it.id)).contains pr.mto_item_id)) =
        db.progress.filter
          (fun pr => !(((lineItems db p l).map (fun it => it.id)).contains pr.mto_item_id)) := by
      rw [hR, List.filter_append]
      have hff : (db.progress.filter
          (fun pr => !(((lineItems db p l).map (fun it => it.id)).contains pr.mto_item_id))).filter
          (fun pr => !(((lineItems db p l).map (fun it => it.id)).contains pr.mto_item_id)) =
          db.progress.filter
          (fun pr => !(((lineItems db p l).map (fun it => it.id)).contains pr.mto_item_id)) := by
        rw [List.filter_filter]
        refine List.filter_congr (fun a _ => ?_)
        cases hPa : (!(((lineItems db p l).map (fun it => it.id)).contains a.mto_item_id)) <;>
          simp [hPa]
      have hzero : ((lineItems db p l).map (progressRowSpec dbMid p l now)).filter
          (fun pr => !(((lineItems db p l).map (fun it => it.id)).contains pr.mto_item_id)) = [] := by
        have := filter_line_rows dbMid p l now
          (fun pr => !(((lineItems db p l).map (fun it => it.id)).contains pr.mto_item_id))
          (fun pr hmem => by
            simp only [hline] at hmem ⊢
            simp only [hmem, Bool.not_true])
        rw [hline] at this
        exact this
      rw [hff, hzero, List.append_nil]
    have hlhs : rebuild_mto_progress_for_line
        { db with progress := (rebuild_mto_progress_for_line dbMid p l now).progress } p l now₂ =
        if (lineItems db p l).isEmpty then
          { db with progress := (rebuild_mto_progress_for_line dbMid p l now).progress }
        else
          { db with progress :=
            (((rebuild_mto_progress_for_line dbMid p l now).progress).filter
              (fun pr => !(((lineItems db p l).map (fun it => it.id)).contains pr.mto_item_id)))
              ++ rowsFor db p l now₂ } := rfl
    have hrhs : rebuild_mto_progress_for_line db p l now₂ =
        if (lineItems db p l).isEmpty then db
        else
          { db with progress :=
            (db.progress.filter
              (fun pr => !(((lineItems db p l).map (fun it => it.id)).contains pr.mto_item_id)))
              ++ rowsFor db p l now₂ } := rfl
    rw [hlhs, hrhs, if_neg hemp, if_neg hemp, hfilter]

theorem register_then_delete (db : DB) (p : Nat) (form : FormData)
    (cons : List DirectItem) (spoolReqs : List SpoolReq)
    (hook : AnomalyPoint → Except Unit Bool) (now now₂ : Nat)
    (hmc : ∀ c ∈ db.mtoConsumptions, ¬ (c.miv_record_id = freshMivId db))
    (hsc : ∀ c ∈ db.spoolConsumptions, ¬ (c.miv_record_id = freshMivId db))
    (hreg : (register_miv_record db p form cons spoolReqs hook now).1 = true) :
    delete_miv_record (register_miv_record db p form cons spoolReqs hook now).2
      (freshMivId db) now₂ =
      (true, rebuild_mto_progress_for_line db p form.lineNo now₂) := by
  rcases register_success_inv db p form cons spoolReqs hook now hreg with
    ⟨nd, items', scons, notes, hdup, hnd, hout, hsnd⟩
  rw [hsnd]
  have hrecnew : ∀ r ∈ db.mivRecords, ¬ (r.id = freshMivId db) :=
    fun r hr => Nat.ne_of_lt (mivRecord_id_lt_fresh db r hr)
  have hfind : ((rebuild_mto_progress_for_line
      { db with
          mivRecords := db.mivRecords ++ [regRecord p form notes now (freshMivId db)]
          mtoConsumptions := db.mtoConsumptions ++ nd
          spoolConsumptions := db.spoolConsumptions ++ scons
          spoolItems := items' }
      p form.lineNo now).mivRecords).find? (fun r => decide (r.id = freshMivId db)) =
      some (regRecord p form notes now (freshMivId db)) := by
    rw [rebuild_mivRecords]
    show (db.mivRecords ++ [regRecord p form notes now (freshMivId db)]).find?
      (fun r => decide (r.id = freshMivId db)) = _
    rw [find_append_of_none _ _ _ (fun r hr => by simp [hrecnew r hr])]
    simp [List.find?, regRecord]
  unfold delete_miv_record
  rw [hfind]
  have hscons : ((rebuild_mto_progress_for_line
      { db with
          mivRecords := db.mivRecords ++ [regRecord p form notes now (freshMivId db)]
          mtoConsumptions := db.mtoConsumptions ++ nd
          spoolConsumptions := db.spoolConsumptions ++ scons
          spoolItems := items' }
      p form.lineNo now).spoolConsumptions).filter
      (fun c => decide (c.miv_record_id = freshMivId db)) = scons := by
    rw [rebuild_spoolConsumptions]
    show (db.spoolConsumptions ++ scons).filter
      (fun c => decide (c.miv_record_id = freshMivId db)) = scons
    rw [List.filter_append,
      filter_skip_of_ne (fun c => c.miv_record_id) (freshMivId db) db.spoolConsumptions hsc,
      filter_take_of_eq (fun c => c.miv_record_id) (freshMivId db) scons
        (process_cons_miv db.spools (freshMivId db) now spoolReqs _ _ _ _ hout)]
    rfl
  have hcomp : (((rebuild_mto_progress_for_line
      { db with
          mivRecords := db.mivRecords ++ [regRecord p form notes now (freshMivId db)]
          mtoConsumptions := db.mtoConsumptions ++ nd
          spoolConsumptions := db.spoolConsumptions ++ scons
          spoolItems := items' }
      p form.lineNo now).spoolConsumptions).filter
      (fun c => decide (c.miv_record_id = freshMivId db))).foldl compStep
      ((rebuild_mto_progress_for_line
        { db with
            mivRecords := db.mivRecords ++ [regRecord p form notes now (freshMivId db)]
            mtoConsumptions := db.mtoConsumptions ++ nd
            spoolConsumptions := db.spoolConsumptions ++ scons
            spoolItems := items' }
        p form.lineNo now).spoolItems) = db.spoolItems := by
    rw [hscons, rebuild_spoolItems]
    show List.foldl compStep items' scons = db.spoolItems
    exact process_roundtrip db.spools (freshMivId db) now spoolReqs _ _ _ _ hout
  have hmtoc : ((rebuild_mto_progress_for_line
      { db with
          mivRecords := db.mivRecords ++ [regRecord p form notes now (freshMivId db)]
          mtoConsumptions := db.mtoConsumptions ++ nd
          spoolConsumptions := db.spoolConsumptions ++ scons
          spoolItems := items' }
      p form.lineNo now).mtoConsumptions).filter
      (fun c => !(decide (c.miv_record_id = freshMivId db))) = db.mtoConsumptions := by
    rw [rebuild_mtoConsumptions]
    show (db.mtoConsumptions ++ nd).filter
      (fun c => !(decide (c.miv_record_id = freshMivId db))) = db.mtoConsumptions
    rw [List.filter_append,
      filter_keep_of_ne (fun c => c.miv_record_id) (freshMivId db) db.mtoConsumptions hmc,
      filter_drop_of_eq (fun c => c.miv_record_id) (freshMivId db) nd
        (processDirect_miv db.progress (freshMivId db) now hook cons nd hnd)]
    exact List.append_nil _
  have hspoolc : ((rebuild_mto_progress_for_line
      { db with
          mivRecords := db.mivRecords ++ [regRecord p form notes now (freshMivId db)]
          mtoConsumptions := db.mtoConsumptions ++ nd
          spoolConsumptions := db.spoolConsumptions ++ scons
          spoolItems := items' }
      p form.lineNo now).spoolConsumptions).filter
      (fun c => !(decide (c.miv_record_id = freshMivId db))) = db.spoolConsumptions := by
    rw [rebuild_spoolConsumptions]
    show (db.spoolConsumptions ++ scons).filter
      (fun c => !(decide (c.miv_record_id = freshMivId db))) = db.spoolConsumptions
    rw [List.filter_append,
      filter_keep_of_ne (fun c => c.miv_record_id) (freshMivId db) db.spoolConsumptions hsc,
      filter_drop_of_eq (fun c => c.miv_record_id) (freshMivId db) scons
        (process_cons_miv db.spools (freshMivId db) now spoolReqs _ _ _ _ hout)]
    exact List.append_nil _
  have hmivr : ((rebuild_mto_progress_for_line
      { db with
          mivRecords := db.mivRecords ++ [regRecord p form notes now (freshMivId db)]
          mtoConsumptions := db.mtoConsumptions ++ nd
          spoolConsumptions := db.spoolConsumptions ++ scons
          spoolItems := items' }
      p form.lineNo now).mivRecords).filter
      (fun r => !(decide (r.id = freshMivId db))) = db.mivRecords := by
    rw [rebuild_mivRecords]
    show (db.mivRecords ++ [regRecord p form notes now (freshMivId db)]).filter
      (fun r => !(decide (r.id = freshMivId db))) = db.mivRecords
    rw [List.filter_append,
      filter_keep_of_ne (fun r => r.id) (freshMivId db) db.mivRecords hrecnew,
      filter_drop_of_eq (fun r => r.id) (freshMivId db)
        [regRecord p form notes now (freshMivId db)] (by intro c hc; simp at hc; rw [hc]; rfl)]
    exact List.append_nil _
  rw [hcomp, hmtoc, hspoolc, hmivr, rebuild_mtoItems, rebuild_spools]
  have hfin := rebuild_progress_update db
    { db with
        mivRecords := db.mivRecords ++ [regRecord p form notes now (freshMivId db)]
        mtoConsumptions := db.mtoConsumptions ++ nd
        spoolConsumptions := db.spoolConsumptions ++ scons
        spoolItems := items' }
    p form.lineNo now now₂ rfl rfl
  show (true, rebuild_mto_progress_for_line
      { db with progress := (rebuild_mto_progress_for_line
        { db with
            mivRecords := db.mivRecords ++ [regRecord p form notes now (freshMivId db)]
            mtoConsumptions := db.mtoConsumptions ++ nd
            spoolConsumptions := db.spoolConsumptions ++ scons
            spoolItems := items' }
        p form.lineNo now).progress }
      p form.lineNo now₂) =
    (true, rebuild_mto_progress_for_line db p form.lineNo now₂)
  rw [hfin]

/-! ## Lemmas: the optimizer's candidate ordering -/

theorem mem_insertBy (lt : α → α → Bool) (x z : α) (l : List α) :
    z ∈ insertBy lt x l ↔ z = x ∨ z ∈ l := by
  induction l with
  | nil => simp [insertBy]
  | cons y ys ih =>
    unfold insertBy
    by_cases h : lt y x = true
    · rw [if_pos h]
      rw [List.mem_cons, ih, List.mem_cons]
      tauto
    · rw [if_neg h]
      simp [List.mem_cons]

theorem insertBy_pairwise (lt le : α → α → Bool)
    (hlt_le : ∀ a b, lt a b = true → le a b = true)
    (htot : ∀ a b, ¬ (lt a b = true) → le b a = true)
    (htrans : ∀ a b c, le a b = true → le b c = true → le a c = true)
    (x : α) (l : List α) (hl : List.Pairwise (fun a b => le a b = true) l) :
    List.Pairwise (fun a b => le a b = true) (insertBy lt x l) := by
  induction l with
  | nil => simp [insertBy]
  | cons y ys ih =>
    rcases List.pairwise_cons.mp hl with ⟨hy, hys⟩
    unfold insertBy
    by_cases h : lt y x = true
    · rw [if_pos h]
      refine List.pairwise_cons.mpr ⟨?_, ih hys⟩
      intro z hz
      rcases (mem_insertBy lt x z ys).mp hz with h1 | h2
      · rw [h1]; exact hlt_le y x h
      · exact hy z h2
    · rw [if_neg h]
      refine List.pairwise_cons.mpr ⟨?_, hl⟩
      intro z hz
      rcases List.mem_cons.mp hz with h1 | h2
      · rw [h1]; exact htot y x h
      · exact htrans x y z (htot y x h) (hy z h2)

theorem sortBy_pairwise (lt le : α → α → Bool)
    (hlt_le : ∀ a b, lt a b = true → le a b = true)
    (htot : ∀ a b, ¬ (lt a b = true) → le b a = true)
    (htrans : ∀ a b c, le a b = true → le b c = true → le a c = true)
    (l : List α) : List.Pairwise (fun a b => le a b = true) (sortBy lt l) := by
  induction l with
  | nil => simp [sortBy]
  | cons x xs ih => exact insertBy_pairwise lt le hlt_le htot htrans x (sortBy lt xs) ih

theorem insertBy_perm (lt : α → α → Bool) (x : α) (l : List α) :
    List.Perm (insertBy lt x l) (x :: l) := by
  induction l with
  | nil => simp [insertBy]
  | cons y ys ih =>
    unfold insertBy
    by_cases h : lt y x = true
    · rw [if_pos h]
      exact List.Perm.trans (List.Perm.cons y ih) (List.Perm.swap x y ys)
    · rw [if_neg h]

theorem sortBy_perm (lt : α → α → Bool) (l : List α) :
    List.Perm (sortBy lt l) l := by
  induction l with
  | nil => simp [sortBy]
  | cons x xs ih =>
    exact List.Perm.trans (insertBy_perm lt x (sortBy lt xs)) (List.Perm.cons x ih)

theorem insertBy_filter_out (lt : α → α → Bool) (pb : α → Bool) (x : α) (l : List α)
    (hx : pb x = false) : (insertBy lt x l).filter pb = l.filter pb := by
  induction l with
  | nil => simp [insertBy, hx]
  | cons y ys ih =>
    unfold insertBy
    by_cases h : lt y x = true
    · rw [if_pos h]
      rw [List.filter_cons, List.filter_cons, ih]
    · rw [if_neg h]
      simp [List.filter_cons, hx]

theorem insertBy_filter_in (lt : α → α → Bool) (pb : α → Bool) (x : α) (l : List α)
    (hx : pb x = true) (hpass : ∀ y, lt y x = true → pb y = false) :
    (insertBy lt x l).filter pb = x :: l.filter pb := by
  induction l with
  | nil => simp [insertBy, hx]
  | cons y ys ih =>
    unfold insertBy
    by_cases h : lt y x = true
    · rw [if_pos h]
      rw [List.filter_cons, List.filter_cons, ih]
      simp [hpass y h]
    · rw [if_neg h]
      simp [List.filter_cons, hx]

theorem sortBy_filter_stable (lt : α → α → Bool) (pb : α → Bool)
    (hpass : ∀ x y, pb x = true → lt y x = true → pb y = false)
    (l : List α) : (sortBy lt l).filter pb = l.filter pb := by
  induction l with
  | nil => rfl
  | cons x xs ih =>
    unfold sortBy
    by_cases hx : pb x = true
    · rw [insertBy_filter_in lt pb x (sortBy lt xs) hx (fun y hy => hpass x y hx hy),
        ih, List.filter_cons]
      simp [hx]
    · have hx2 : pb x = false := by simpa using hx
      rw [insertBy_filter_out lt pb x (sortBy lt xs) hx2, ih, List.filter_cons]
      simp [hx2]

theorem keyLT_keyLE (a b : Option ℚ) (h : keyLT a b = true) : keyLE a b = true := by
  cases a <;> cases b <;> simp [keyLT, keyLE] at h ⊢
  · exact le_of_lt h

theorem keyLE_of_not_keyLT (a b : Option ℚ) (h : ¬ (keyLT a b = true)) :
    keyLE b a = true := by
  cases a <;> cases b <;> simp [keyLT, keyLE] at h ⊢
  · exact h

theorem keyLE_trans (a b c : Option ℚ) (h1 : keyLE a b = true) (h2 : keyLE b c = true) :
    keyLE a c = true := by
  cases a <;> cases b <;> cases c <;> simp [keyLE] at h1 h2 ⊢
  exact le_trans h1 h2

/-- An insufficient candidate (`length < remaining`) is exactly one with
sort key `none` (`float('inf')`). -/
theorem candKey_none_iff (need : ℚ) (si : SpoolItem) :
    (candKey need si).isNone = true ↔ si.length.getD 0 < need := by
  unfold candKey
  by_cases h : need ≤ si.length.getD 0 <;> simp [h]
  · exact lt_of_not_le h

/-! ## The claims -/

set_option maxRecDepth 8000 in
/-- C1 (corrected): on a line with a bore-less ELBOW requirement and a
spool withdrawal of 30 from a bore-6 ELB inventory item, the rebuild
stores `used_qty = 0`, while the claimed rule — a null requirement bore
accrues matching spool consumption regardless of the item's bore — gives
`direct_used + spool_used = 0 + 30`.  The claim as stated is therefore
false at this input. -/
theorem C1_null_bore_counterexample :
    ((rebuild_mto_progress_for_line exDB1 1 "L" 5).progress.map (fun r => r.used_qty)
      = [some 0]) ∧
    directUsed exDB1 1 = 0 ∧
    claimSpoolUsed exDB1 1 "L" exItem1 = 30 ∧
    ¬ (some ((0 : ℚ)) =
      some (directUsed exDB1 1 + claimSpoolUsed exDB1 1 "L" exItem1)) := by
  with_unfolding_all decide

/-- C1 (amended): after a rebuild, the progress rows of the line are
exactly the freshly computed rows in which `spool_used` sums the
SpoolConsumptionRecords of the line's vouchers whose inventory item's
uppercased component type lies in the requirement's equivalence set and
whose bore equals the requirement's bore exactly (a null requirement bore
matches only a null inventory bore, `matchTB`); the stored `used_qty` is
`round2 (direct_used + spool_used)` and `remaining_qty` is
`round2 (max 0 (required − used))` (`progressRowSpec`). -/
theorem C1_spool_match_is_exact_bore (db : DB) (p : Nat) (l : String) (now : Nat) :
    (rebuild_mto_progress_for_line db p l now).progress =
      db.progress.filter
        (fun pr => !(((lineItems db p l).map (fun it => it.id)).contains pr.mto_item_id))
      ++ (lineItems db p l).map (progressRowSpec db p l now) :=
  rebuild_progress_eq db p l now

set_option maxRecDepth 8000 in
/-- C4 (corrected): a single direct consumption of 0.001 yields a stored
`used_qty` of 0, not the exact ledger sum 0.001: the stored value is the
ledger sum rounded to two decimals, so exact equality fails. -/
theorem C4_rounding_counterexample :
    ((rebuild_mto_progress_for_line exDB4 1 "L" 5).progress.map (fun r => r.used_qty)
      = [some 0]) ∧
    directUsed exDB4 1 = 1/1000 ∧
    ¬ (some ((0 : ℚ)) = some ((1 : ℚ)/1000)) := by
  with_unfolding_all decide

/-- C4 (amended): after a rebuild, each requirement of the line has a
progress row whose stored `used_qty` equals the sum of its
ConsumptionRecord quantities plus the sum of the matching
SpoolConsumptionRecord quantities, rounded to two decimals
(`round2`), rather than the exact ledger sum. -/
theorem C4_used_is_rounded_ledger_sum (db : DB) (p : Nat) (l : String) (now : Nat)
    (it : MTOItem) (h : it ∈ lineItems db p l) :
    ∃ row ∈ (rebuild_mto_progress_for_line db p l now).progress,
      row.mto_item_id = it.id ∧
      row.used_qty = some (round2 (directUsed db it.id + spoolMatchSum db p l it)) := by
  refine ⟨progressRowSpec db p l now it, ?_, rfl, rfl⟩
  rw [rebuild_progress_eq]
  exact List.mem_append_right _ (List.mem_map.mpr ⟨it, h, rfl⟩)

set_option maxRecDepth 8000 in
/-- Witness for C4: the TEE requirement of the concrete line. -/
theorem C4_used_is_rounded_ledger_sum_witness :
    ∃ row ∈ (rebuild_mto_progress_for_line exDB4 1 "L" 5).progress,
      row.mto_item_id = 1 ∧
      row.used_qty = some (round2 (directUsed exDB4 1 + spoolMatchSum exDB4 1 "L"
        { id := 1, project_id := 1, line_no := "L", item_type := some "TEE"
          item_code := some "TC", description := some "d", unit := some "PCS"
          p1_bore_in := none, length_m := none, quantity := some 10 })) :=
  C4_used_is_rounded_ledger_sum exDB4 1 "L" 5
    { id := 1, project_id := 1, line_no := "L", item_type := some "TEE"
      item_code := some "TC", description := some "d", unit := some "PCS"
      p1_bore_in := none, length_m := none, quantity := some 10 }
    (by with_unfolding_all decide)

set_option maxRecDepth 8000 in
/-- C6 (corrected): rebuilding the same line twice with no ledger change
produces progress rows that differ (in `last_updated`, stamped with
`datetime.now()` of each run), so the rows are not byte-identical. -/
theorem C6_timestamp_counterexample :
    (rebuild_mto_progress_for_line (rebuild_mto_progress_for_line exDB4 1 "L" 0) 1 "L" 1).progress
      ≠ (rebuild_mto_progress_for_line exDB4 1 "L" 0).progress := by
  with_unfolding_all decide

/-- C6 (amended): rebuilding twice with no intervening ledger change
produces progress rows identical in every field except `last_updated`
(which records each run's clock). -/
theorem C6_idempotent_up_to_timestamp (db : DB) (p : Nat) (l : String) (t₁ t₂ : Nat) :
    ((rebuild_mto_progress_for_line (rebuild_mto_progress_for_line db p l t₁) p l t₂).progress).map
        eraseTs =
      ((rebuild_mto_progress_for_line db p l t₁).progress).map eraseTs := by
  rw [rebuild_twice_progress db p l t₁ t₂, rebuild_progress_eq db p l t₁,
    List.map_append, List.map_append, List.map_map, List.map_map]
  have h : (eraseTs ∘ progressRowSpec db p l t₂) = (eraseTs ∘ progressRowSpec db p l t₁) :=
    funext (fun it => eraseTs_rowSpec db p l t₂ t₁ it)
  rw [h]

/-- C9 (confirmed): for every pair of labels in the static alias table,
membership in the Resolver's equivalence set is symmetric. -/
theorem C9_resolver_symmetry :
    ∀ a ∈ allSpoolLabels, ∀ b ∈ allSpoolLabels,
      (b ∈ resolverFor a ↔ a ∈ resolverFor b) := by
  decide

/-- Witness for C9 at the pair (FLANGE, FLG). -/
theorem C9_resolver_symmetry_witness :
    "FLG" ∈ resolverFor "FLANGE" ↔ "FLANGE" ∈ resolverFor "FLG" :=
  C9_resolver_symmetry "FLANGE" (by decide) "FLG" (by decide)

set_option maxRecDepth 8000 in
/-- C5 (corrected): on a state with a progress row for item 1, a
registration whose anomaly hook raises returns failure with the state
unchanged — the hook runs inside the transaction, before commit, and its
exception rolls the voucher back — while the same registration with a
normally returning hook succeeds.  This refutes both that the hook is
invoked only after commit and that a hook failure never fails the
registration. -/
theorem C5_hook_aborts_counterexample :
    register_miv_record exDB5 1 exForm [⟨1, 5⟩] [] raiseHook 7 = (false, exDB5) ∧
    (register_miv_record exDB5 1 exForm [⟨1, 5⟩] [] (okHook false) 7).1 = true := by
  constructor
  · with_unfolding_all decide
  · with_unfolding_all decide

/-- C5 (amended): the anomaly hook is invoked inside the registration
transaction, before commit: if the hook raises on some direct line whose
item has a progress entry, the whole registration fails and rolls back to
the original state; when the hook returns normally, its verdict never
influences the outcome. -/
theorem C5_hook_runs_before_commit :
    (∀ (db : DB) (p : Nat) (form : FormData) (cons : List DirectItem)
        (spoolReqs : List SpoolReq) (now : Nat),
      (∃ it ∈ cons, (progressTotalFor db.progress it.mto_item_id).isSome = true) →
      register_miv_record db p form cons spoolReqs raiseHook now = (false, db)) ∧
    (∀ (db : DB) (p : Nat) (form : FormData) (cons : List DirectItem)
        (spoolReqs : List SpoolReq) (now : Nat) (b₁ b₂ : Bool),
      register_miv_record db p form cons spoolReqs (okHook b₁) now =
        register_miv_record db p form cons spoolReqs (okHook b₂) now) := by
  constructor
  · intro db p form cons spoolReqs now h
    unfold register_miv_record
    by_cases hdup : db.mivRecords.any (fun r => decide (r.miv_tag = form.mivTag)) = true
    · rw [if_pos hdup]
    · rw [if_neg hdup, processDirect_raise db.progress (freshMivId db) now cons h]
  · intro db p form cons spoolReqs now b₁ b₂
    unfold register_miv_record
    rw [processDirect_hook_irrelevant db.progress (freshMivId db) now b₁ b₂ cons]

/-- Witness for C5: the raising hook aborts the concrete registration. -/
theorem C5_hook_runs_before_commit_witness :
    register_miv_record exDB5 1 exForm [⟨1, 5⟩] [] raiseHook 7 = (false, exDB5) :=
  C5_hook_runs_before_commit.1 exDB5 1 exForm [⟨1, 5⟩] [] 7
    ⟨⟨1, 5⟩, by decide, by with_unfolding_all decide⟩

set_option maxRecDepth 8000 in
/-- C8 (corrected): with a project-1 voucher already tagged `T`,
registering tag `T` into project 2 fails although no voucher of project 2
carries that tag: the `unique=True` constraint on `miv_tag` is
table-wide, not per-project. -/
theorem C8_cross_project_counterexample :
    register_miv_record exDB8 2 exForm8 [] [] (okHook false) 7 = (false, exDB8) ∧
    (∀ r ∈ exDB8.mivRecords, ¬ (r.project_id = 2 ∧ r.miv_tag = "T")) := by
  constructor
  · with_unfolding_all decide
  · decide

/-- C8 (amended): a registration fails because of tag duplication exactly
when some voucher anywhere in the table already carries the tag —
uniqueness is global across projects (models.py line 31), not scoped to
the project: any existing record with the same tag makes registration
fail with full rollback, and (with no spool lines and a normally
returning hook) registration succeeds iff no record in the whole table
carries the tag. -/
theorem C8_tag_uniqueness_is_global :
    (∀ (db : DB) (p : Nat) (form : FormData) (cons : List DirectItem)
        (spoolReqs : List SpoolReq) (hook : AnomalyPoint → Except Unit Bool) (now : Nat),
      (∃ r ∈ db.mivRecords, r.miv_tag = form.mivTag) →
      register_miv_record db p form cons spoolReqs hook now = (false, db)) ∧
    (∀ (db : DB) (p : Nat) (form : FormData) (cons : List DirectItem) (now : Nat),
      ((register_miv_record db p form cons [] (okHook false) now).1 = true ↔
        ∀ r ∈ db.mivRecords, ¬ (r.miv_tag = form.mivTag))) := by
  constructor
  · intro db p form cons spoolReqs hook now h
    have hdup : db.mivRecords.any (fun r => decide (r.miv_tag = form.mivTag)) = true := by
      rw [List.any_eq_true]
      rcases h with ⟨r, hr, ht⟩
      exact ⟨r, hr, by simp [ht]⟩
    unfold register_miv_record
    rw [if_pos hdup]
  · intro db p form cons now
    by_cases hdup : db.mivRecords.any (fun r => decide (r.miv_tag = form.mivTag)) = true
    · rcases List.any_eq_true.mp hdup with ⟨r, hr, ht⟩
      constructor
      · intro habs
        unfold register_miv_record at habs
        rw [if_pos hdup] at habs
        exact absurd habs (by simp)
      · intro hall
        exact absurd (of_decide_eq_true ht) (hall r hr)
    · constructor
      · intro _ r hr ht
        exact absurd (List.any_eq_true.mpr ⟨r, hr, by simp [ht]⟩) hdup
      · intro _
        unfold register_miv_record
        rw [if_neg hdup, processDirect_ok]
        rfl

/-- Witness for C8: the cross-project duplicate makes registration fail. -/
theorem C8_tag_uniqueness_is_global_witness :
    register_miv_record exDB8 2 exForm8 [] [] (okHook false) 7 = (false, exDB8) :=
  C8_tag_uniqueness_is_global.1 exDB8 2 exForm8 [] [] (okHook false) 7
    ⟨⟨1, 1, "L", "T", "", "", "", "", "", 0, false⟩, by decide, by decide⟩

set_option maxRecDepth 8000 in
/-- C2 (corrected): with an available length of 1.99, a withdrawal of 2
fails and rolls back, although the claimed test `available < qty − 0.01`
(1.99 < 1.99) is false and so predicts success: the code's stock check
has no ε tolerance. -/
theorem C2_no_epsilon_counterexample :
    register_miv_record exDB2e 1 exForm [] [⟨1, 2⟩] (okHook false) 7 = (false, exDB2e) ∧
    ¬ ((199/100 : ℚ) < 2 - 1/100) := by
  constructor
  · with_unfolding_all decide
  · with_unfolding_all decide

theorem processSpoolList_head_insufficient (items : List SpoolItem) (spools : List Spool)
    (mivId now : Nat) (r : SpoolReq) (rest : List SpoolReq) (si : SpoolItem) (v : ℚ)
    (hfind : items.find? (fun x => decide (x.id = r.spool_item_id)) = some si)
    (havail : (if modeIsPipe si then si.length else si.qty_available) = some v)
    (hv : v < r.used_qty) :
    processSpoolList items spools mivId now (r :: rest) = none := by
  cases hsp : spools.find? (fun x => decide (x.id = si.spool_id_fk)) with
  | none => simp only [processSpoolList, hfind, hsp]
  | some sp => simp only [processSpoolList, hfind, hsp, havail, if_pos hv]

theorem processSpoolList_step_succeeds (items : List SpoolItem) (spools : List Spool)
    (mivId now : Nat) (r : SpoolReq) (rest : List SpoolReq) (si : SpoolItem) (sp : Spool)
    (v : ℚ)
    (hfind : items.find? (fun x => decide (x.id = r.spool_item_id)) = some si)
    (hsp : spools.find? (fun x => decide (x.id = si.spool_id_fk)) = some sp)
    (havail : (if modeIsPipe si then si.length else si.qty_available) = some v)
    (hv : ¬ (v < r.used_qty)) :
    processSpoolList items spools mivId now (r :: rest) =
      (processSpoolList (tf r.spool_item_id (-r.used_qty) items) spools mivId now rest).map
        (fun t => (t.1,
          ({ spool_item_id := r.spool_item_id, spool_id := sp.id, miv_record_id := mivId
             used_qty := r.used_qty, timestamp := now } : SpoolConsumption) :: t.2.1,
          noteFor r.used_qty (modeIsPipe si) (si.component_type.getD "") sp.spool_id
            :: t.2.2)) := by
  simp only [processSpoolList, hfind, hsp, havail, if_neg hv]
  cases processSpoolList (tf r.spool_item_id (-r.used_qty) items) spools mivId now rest with
  | none => rfl
  | some t =>
    rcases t with ⟨i2, c2, n2⟩
    rfl

theorem processSpoolList_append_none (spools : List Spool) (mivId now : Nat)
    (pre rest : List SpoolReq) :
    ∀ items items₁ c₁ n₁,
    processSpoolList items spools mivId now pre = some (items₁, c₁, n₁) →
    processSpoolList items₁ spools mivId now rest = none →
    processSpoolList items spools mivId now (pre ++ rest) = none := by
  induction pre with
  | nil =>
    intro items items₁ c₁ n₁ hpre hrest
    unfold processSpoolList at hpre
    simp only [Option.some.injEq, Prod.mk.injEq] at hpre
    rw [List.nil_append, hpre.1]
    exact hrest
  | cons r pre ih =>
    intro items items₁ c₁ n₁ hpre hrest
    rcases processSpoolList_cons_inv spools mivId now r pre items items₁ c₁ n₁ hpre with
      ⟨si, sp, v, cons', notes', hfind, hsp, havail, hlt, hpre2, hc, hn⟩
    rw [List.cons_append,
      processSpoolList_step_succeeds items spools mivId now r (pre ++ rest) si sp v
        hfind hsp havail hlt,
      ih (tf r.spool_item_id (-r.used_qty) items) items₁ cons' notes' hpre2 hrest]
    rfl

theorem register_fail_rollback (db : DB) (p : Nat) (form : FormData)
    (dcons : List DirectItem) (sreqs : List SpoolReq)
    (hook : AnomalyPoint → Except Unit Bool) (now : Nat)
    (h : (register_miv_record db p form dcons sreqs hook now).1 = false) :
    register_miv_record db p form dcons sreqs hook now = (false, db) := by
  unfold register_miv_record at h ⊢
  cases hdup : db.mivRecords.any (fun r => decide (r.miv_tag = form.mivTag)) with
  | true => rfl
  | false =>
    rw [hdup] at h
    cases hd : processDirect db.progress (freshMivId db) now hook dcons with
    | none => rfl
    | some nd =>
      rw [hd] at h
      cases hs : processSpoolList db.spoolItems db.spools (freshMivId db) now sreqs with
      | none => rfl
      | some t =>
        rcases t with ⟨i2, c2, n2⟩
        rw [hs] at h
        have hbad : (true : Bool) = false := h
        exact Bool.noConfusion hbad

/-- C2 (amended): for every spool-withdrawal line of quantity `q` against an
inventory item whose mode-selected availability — length for PIPE-type items
(data_manager.py line 192), available quantity otherwise (line 196) — is `v`,
the allocate step fails exactly when `v < q`, a strict comparison with no ε in
either mode (part 1: `v < q` makes the withdrawal loop fail; part 2: otherwise
the line itself never fails — the loop continues on the debited pool); and the
registration transaction is atomic (part 3: a registration whose spool list
reaches an insufficient line after any direct lines and any earlier successful
spool withdrawals returns the original state — header, ledgers and inventory
all rolled back; part 4: every failed registration, whatever the cause,
returns the original state). -/
theorem C2_insufficient_stock_strict_general :
    (∀ (items : List SpoolItem) (spools : List Spool) (mivId now : Nat)
       (r : SpoolReq) (rest : List SpoolReq) (si : SpoolItem) (v : ℚ),
       items.find? (fun x => decide (x.id = r.spool_item_id)) = some si →
       (if modeIsPipe si then si.length else si.qty_available) = some v →
       v < r.used_qty →
       processSpoolList items spools mivId now (r :: rest) = none) ∧
    (∀ (items : List SpoolItem) (spools : List Spool) (mivId now : Nat)
       (r : SpoolReq) (rest : List SpoolReq) (si : SpoolItem) (sp : Spool) (v : ℚ),
       items.find? (fun x => decide (x.id = r.spool_item_id)) = some si →
       spools.find? (fun x => decide (x.id = si.spool_id_fk)) = some sp →
       (if modeIsPipe si then si.length else si.qty_available) = some v →
       ¬ (v < r.used_qty) →
       processSpoolList items spools mivId now (r :: rest) =
         (processSpoolList (tf r.spool_item_id (-r.used_qty) items) spools mivId now
             rest).map
           (fun t => (t.1,
             ({ spool_item_id := r.spool_item_id, spool_id := sp.id, miv_record_id := mivId
                used_qty := r.used_qty, timestamp := now } : SpoolConsumption) :: t.2.1,
             noteFor r.used_qty (modeIsPipe si) (si.component_type.getD "") sp.spool_id
               :: t.2.2))) ∧
    (∀ (db : DB) (p : Nat) (form : FormData) (dcons : List DirectItem)
       (pre : List SpoolReq) (r : SpoolReq) (rest : List SpoolReq)
       (hook : AnomalyPoint → Except Unit Bool) (now : Nat)
       (items₁ : List SpoolItem) (c₁ : List SpoolConsumption) (n₁ : List String)
       (si : SpoolItem) (v : ℚ),
       processSpoolList db.spoolItems db.spools (freshMivId db) now pre =
         some (items₁, c₁, n₁) →
       items₁.find? (fun x => decide (x.id = r.spool_item_id)) = some si →
       (if modeIsPipe si then si.length else si.qty_available) = some v →
       v < r.used_qty →
       register_miv_record db p form dcons (pre ++ r :: rest) hook now = (false, db)) ∧
    (∀ (db : DB) (p : Nat) (form : FormData) (dcons : List DirectItem)
       (sreqs : List SpoolReq) (hook : AnomalyPoint → Except Unit Bool) (now : Nat),
       (register_miv_record db p form dcons sreqs hook now).1 = false →
       register_miv_record db p form dcons sreqs hook now = (false, db)) := by
  refine ⟨?_, ?_, ?_, ?_⟩
  · intro items spools mivId now r rest si v hfind havail hv
    exact processSpoolList_head_insufficient items spools mivId now r rest si v
      hfind havail hv
  · intro items spools mivId now r rest si sp v hfind hsp havail hv
    exact processSpoolList_step_succeeds items spools mivId now r rest si sp v
      hfind hsp havail hv
  · intro db p form dcons pre r rest hook now items₁ c₁ n₁ si v hpre hfind havail hv
    have hnone : processSpoolList db.spoolItems db.spools (freshMivId db) now
        (pre ++ r :: rest) = none :=
      processSpoolList_append_none db.spools (freshMivId db) now pre (r :: rest)
        db.spoolItems items₁ c₁ n₁ hpre
        (processSpoolList_head_insufficient items₁ db.spools (freshMivId db) now r rest
          si v hfind havail hv)
    unfold register_miv_record
    cases hdup : db.mivRecords.any (fun x => decide (x.miv_tag = form.mivTag)) with
    | true => rfl
    | false =>
      cases hd : processDirect db.progress (freshMivId db) now hook dcons with
      | none => rfl
      | some nd =>
        rw [hnone]
        rfl
  · intro db p form dcons sreqs hook now h
    exact register_fail_rollback db p form dcons sreqs hook now h

set_option maxRecDepth 8000 in
/-- Witness for C2, exercising part 3 at a concrete state: a registration
with one direct line and two spool lines — a successful count-mode
withdrawal of 3 from the ELB item of available quantity 5 followed by a
length-mode request of 60 from the PIPE item of available length 50 — fails
and returns the original state, so the direct write, the first spool write
and the header are all rolled back and the inventory is unchanged. -/
theorem C2_insufficient_stock_strict_general_witness :
    register_miv_record exDB2w 1 exForm [⟨1, 20⟩] ([⟨2, 3⟩] ++ ⟨1, 60⟩ :: [])
      (okHook false) 7 = (false, exDB2w) :=
  C2_insufficient_stock_strict_general.2.2.1 exDB2w 1 exForm [⟨1, 20⟩] [⟨2, 3⟩]
    ⟨1, 60⟩ [] (okHook false) 7
    [⟨1, 1, some "PIPE", some 6, none, some 50⟩, ⟨2, 1, some "ELB", none, some 2, none⟩]
    [⟨2, 1, 1, 3, 7⟩] [noteFor 3 false "ELB" "S1"]
    ⟨1, 1, some "PIPE", some 6, none, some 50⟩ 50
    (by with_unfolding_all decide) (by with_unfolding_all decide)
    (by with_unfolding_all decide) (by with_unfolding_all decide)

/-- C3 (confirmed): a successful `RegisterVoucher` followed by
`DeleteVoucher` of the same voucher leaves the database equal to the
original state with the line's progress rebuilt from it: every inventory
item's available quantity/length is restored (`spoolItems` unchanged),
both consumption ledgers and the voucher table are restored, and the
post-delete progress rows are those computed from the pre-registration
ledger — the voucher contributes zero to every `used`.  The freshness
hypotheses say no pre-existing ledger row dangles on the new
autoincremented voucher id. -/
theorem C3_register_delete_roundtrip (db : DB) (p : Nat) (form : FormData)
    (cons : List DirectItem) (spoolReqs : List SpoolReq)
    (hook : AnomalyPoint → Except Unit Bool) (now now₂ : Nat)
    (hmc : ∀ c ∈ db.mtoConsumptions, ¬ (c.miv_record_id = freshMivId db))
    (hsc : ∀ c ∈ db.spoolConsumptions, ¬ (c.miv_record_id = freshMivId db))
    (hreg : (register_miv_record db p form cons spoolReqs hook now).1 = true) :
    delete_miv_record (register_miv_record db p form cons spoolReqs hook now).2
      (freshMivId db) now₂ =
      (true, rebuild_mto_progress_for_line db p form.lineNo now₂) ∧
    (rebuild_mto_progress_for_line db p form.lineNo now₂).spoolItems = db.spoolItems :=
  ⟨register_then_delete db p form cons spoolReqs hook now now₂ hmc hsc hreg,
   rebuild_spoolItems db p form.lineNo now₂⟩

set_option maxRecDepth 8000 in
/-- Witness for C3 — Scenario 1 state: register direct 20 and spool 30,
then delete. -/
theorem C3_register_delete_roundtrip_witness :
    delete_miv_record
        (register_miv_record exDB3 1 exForm [⟨1, 20⟩] [⟨1, 30⟩] (okHook false) 7).2
        (freshMivId exDB3) 9 =
      (true, rebuild_mto_progress_for_line exDB3 1 "L" 9) ∧
    (rebuild_mto_progress_for_line exDB3 1 "L" 9).spoolItems = exDB3.spoolItems :=
  C3_register_delete_roundtrip exDB3 1 exForm [⟨1, 20⟩] [⟨1, 30⟩] (okHook false) 7 9
    (by decide) (by decide) (by with_unfolding_all decide)

set_option maxRecDepth 8000 in
/-- C7 (corrected): with remaining 12 and two insufficient candidates of
lengths 5 then 8, the code's stable sort keeps them in their original
order [5, 8] — all insufficient keys are `float('inf')` — while the
claimed descending-length order would put them as [8, 5].  The claim's
ordering is therefore false at this input. -/
theorem C7_insufficient_order_counterexample :
    sortCands 12 [exPipe5, exPipe8] = [exPipe5, exPipe8] ∧
    specSortCands 12 [exPipe5, exPipe8] = [exPipe8, exPipe5] ∧
    ([exPipe5, exPipe8] : List SpoolItem) ≠ [exPipe8, exPipe5] := by
  refine ⟨?_, ?_, ?_⟩
  · with_unfolding_all decide
  · with_unfolding_all decide
  · with_unfolding_all decide

set_option maxRecDepth 8000 in
/-- C7 (amended): the optimizer's candidate order is the stable sort by
the key `length − remaining` for sufficient pieces and `float('inf')` for
insufficient ones: the output is a permutation of the candidates, ordered
so that sufficient pieces come first in ascending `length − remaining`
and every insufficient piece after them — insufficient pieces staying in
their original relative order (not descending length); the greedy take
then yields, for remaining = 12 and candidates [15, 40, 5], the plan that
cuts 12 from the 15-length piece with reported offcut 3. -/
theorem C7_sort_order_and_scenario :
    (∀ (need : ℚ) (cs : List SpoolItem),
      List.Pairwise (fun a b => keyLE (candKey need a) (candKey need b) = true)
        (sortCands need cs)) ∧
    (∀ (need : ℚ) (cs : List SpoolItem),
      (sortCands need cs).filter (fun s => (candKey need s).isNone) =
        cs.filter (fun s => (candKey need s).isNone)) ∧
    (∀ (need : ℚ) (cs : List SpoolItem), List.Perm (sortCands need cs) cs) ∧
    get_optimized_spool_suggestion exDB7 1 "L" =
      OptOut.plan [{ mto_desc := some "d", selections := [⟨1, "S1", 12⟩] }] 3 := by
  refine ⟨?_, ?_, ?_, ?_⟩
  · intro need cs
    exact sortBy_pairwise _ _
      (fun a b h => keyLT_keyLE (candKey need a) (candKey need b) h)
      (fun a b h => keyLE_of_not_keyLT (candKey need a) (candKey need b) h)
      (fun a b c h1 h2 => keyLE_trans (candKey need a) (candKey need b) (candKey need c) h1 h2)
      cs
  · intro need cs
    refine sortBy_filter_stable _ _ (fun x y hx hy => ?_) cs
    have hxnone : candKey need x = none := by
      cases hc : candKey need x
      · rfl
      · rw [hc] at hx; simp at hx
    rw [hxnone] at hy
    cases hc : candKey need y
    · rw [hc] at hy; simp [keyLT] at hy
    · simp
  · intro need cs
    exact sortBy_perm _ cs
  · with_unfolding_all decide

/-- Helper for C10: compensating a list of consumptions that all
reference missing items changes nothing. -/
theorem foldl_comp_skip (items : List SpoolItem) (cs : List SpoolConsumption)
    (h : ∀ c ∈ cs, items.find? (fun x => decide (x.id = c.spool_item_id)) = none) :
    cs.foldl compStep items = items := by
  induction cs with
  | nil => rfl
  | cons c cs ih =>
    have hc : compStep items c = items := by
      unfold compStep
      rw [h c (List.mem_cons_self c cs)]
    rw [List.foldl_cons, hc,
      ih (fun d hd => h d (List.mem_cons_of_mem c hd))]

/-- C10 (confirmed): when a voucher's SpoolConsumptionRecord references a
SpoolItem id that no longer exists, both deletion and edit silently skip
the compensation for that record while still deleting the record, report
success, and never restore the skipped quantity to any inventory item:
the pool is unchanged and no error is raised. -/
theorem C10_dangling_reference_skipped (db : DB) (rid : Nat) (rec0 : MIVRecord)
    (now : Nat) (items : List DirectItem)
    (hrec : db.mivRecords.find? (fun r => decide (r.id = rid)) = some rec0)
    (hdangle : ∀ c ∈ db.spoolConsumptions, c.miv_record_id = rid →
      db.spoolItems.find? (fun x => decide (x.id = c.spool_item_id)) = none) :
    ((delete_miv_record db rid now).1 = true ∧
      (delete_miv_record db rid now).2.spoolItems = db.spoolItems ∧
      (delete_miv_record db rid now).2.spoolConsumptions =
        db.spoolConsumptions.filter (fun c => !(decide (c.miv_record_id = rid)))) ∧
    ((update_miv_items db rid items [] now).1 = true ∧
      (update_miv_items db rid items [] now).2.spoolItems = db.spoolItems ∧
      (update_miv_items db rid items [] now).2.spoolConsumptions =
        db.spoolConsumptions.filter (fun c => !(decide (c.miv_record_id = rid)))) := by
  have hskip : (db.spoolConsumptions.filter
      (fun c => decide (c.miv_record_id = rid))).foldl compStep db.spoolItems =
      db.spoolItems := by
    refine foldl_comp_skip db.spoolItems _ (fun c hc => ?_)
    rcases List.mem_filter.mp hc with ⟨hmem, hprop⟩
    exact hdangle c hmem (of_decide_eq_true hprop)
  constructor
  · unfold delete_miv_record
    rw [hrec]
    refine ⟨rfl, ?_, ?_⟩
    · rw [rebuild_spoolItems]
      exact hskip
    · rw [rebuild_spoolConsumptions]
  · unfold update_miv_items
    rw [hrec, hskip]
    have hempty : processSpoolList db.spoolItems db.spools rid now [] =
        some (db.spoolItems, [], []) := rfl
    rw [hempty]
    refine ⟨rfl, ?_, ?_⟩
    · rw [rebuild_spoolItems]
    · rw [rebuild_spoolConsumptions]
      exact List.append_nil _

set_option maxRecDepth 8000 in
/-- Witness for C10: the concrete voucher with a dangling spool
consumption. -/
theorem C10_dangling_reference_skipped_witness :
    ((delete_miv_record exDB10 1 3).1 = true ∧
      (delete_miv_record exDB10 1 3).2.spoolItems = exDB10.spoolItems ∧
      (delete_miv_record exDB10 1 3).2.spoolConsumptions =
        exDB10.spoolConsumptions.filter (fun c => !(decide (c.miv_record_id = 1)))) ∧
    ((update_miv_items exDB10 1 [] [] 3).1 = true ∧
      (update_miv_items exDB10 1 [] [] 3).2.spoolItems = exDB10.spoolItems ∧
      (update_miv_items exDB10 1 [] [] 3).2.spoolConsumptions =
        exDB10.spoolConsumptions.filter (fun c => !(decide (c.miv_record_id = 1)))) :=
  C10_dangling_reference_skipped exDB10 1 ⟨1, 1, "L", "T", "", "", "", "", "", 0, false⟩ 3 []
    (by decide) (by decide)

end MIT
